import Mathlib

/-!
# FireFly IoT discovery — verification of the specification against the source

This file is a shallow embedding of the pure parts of the FireFly discovery
service (Python) into Lean 4, together with theorems settling the claims of
the specification.

Conventions of the embedding:

* Python `bytes` values are modelled as `List Nat` with every element `< 256`;
  byte strings produced by the embedded functions satisfy this bound.
* Python `str` values are modelled as `String` (or `List Char` inside
  character-level scanners).
* Machine arithmetic `x >> k` / `x & (2^k - 1)` is written `x / 2^k` and
  `x % 2^k` on `Nat`, which agrees with the Python operators on
  non-negative integers.
* Fallible Python code (functions that may raise) returns `Except` /
  `Option`; a raised exception that the source lets escape is `Except.error`.
* Network and XML-library effects are abstracted behind explicit oracle
  records passed as arguments; the pure control flow around them is
  translated from the source.
-/

namespace FireFly

/-! ## CoAP constants (src/protocols/coap.py) -/

def COAP_VERSION : Nat := 1

def TYPE_CON : Nat := 0

def TYPE_NON : Nat := 1

def TYPE_ACK : Nat := 2

def CODE_GET : Nat × Nat := (0, 1)

def CODE_CONTENT : Nat × Nat := (2, 5)

def CODE_UNAUTHORIZED : Nat × Nat := (4, 1)

def OPTION_URI_PATH : Nat := 11

def OPTION_CONTENT_FORMAT : Nat := 12

def PAYLOAD_MARKER : Nat := 255

/-! ## CoAP message encoding (src/protocols/coap.py, `_build_coap_request`,
`_encode_option`) -/

/-- Embeds `struct.pack("!H", n)`: big-endian 16-bit.  All call sites in the
source pass `n < 2^16` (`struct.pack` would raise otherwise). -/
def packH (n : Nat) : List Nat := [n / 256 % 256, n % 256]

/-- `_encode_option(delta, value)`: one CoAP option (delta + length + value)
with the extended 13/14 forms.  `(d << 4) | l_` is written `d * 16 + l_`,
which coincides with the bitwise form because `l_ < 16` always. -/
def encodeOption (delta : Nat) (value : List Nat) : List Nat :=
  let length := value.length
  let dpair : Nat × List Nat :=
    if delta < 13 then (delta, [])
    else if delta < 269 then (13, [delta - 13])
    else (14, packH (delta - 269))
  let lpair : Nat × List Nat :=
    if length < 13 then (length, [])
    else if length < 269 then (13, [length - 13])
    else (14, packH (length - 269))
  (dpair.1 * 16 + lpair.1) :: (dpair.2 ++ lpair.2 ++ value)

/-- The `for seg in segments` loop of `_build_coap_request`:
`delta = OPTION_URI_PATH - prev_option; prev_option = OPTION_URI_PATH`.
`prev_option` is only ever `0` or `11`, so `Nat` subtraction agrees with
Python's. -/
def buildOptionsAux (prevOption : Nat) : List (List Nat) → List Nat
  | [] => []
  | seg :: rest =>
      encodeOption (OPTION_URI_PATH - prevOption) seg ++
        buildOptionsAux OPTION_URI_PATH rest

/-- `uri_path.strip("/")` at byte level (47 = `'/'`). -/
def stripSlashes (p : List Nat) : List Nat :=
  ((p.dropWhile (· = 47)).reverse.dropWhile (· = 47)).reverse

/-- `uri_path.split("/")` at byte level: Python `str.split(sep)` keeps empty
pieces. -/
def splitOnSlash : List Nat → List (List Nat)
  | [] => [[]]
  | b :: rest =>
      if b = 47 then [] :: splitOnSlash rest
      else
        match splitOnSlash rest with
        | s :: ss => (b :: s) :: ss
        | [] => [[b]]

/-- `[s for s in uri_path.strip("/").split("/") if s]`. -/
def pathSegments (uriPath : List Nat) : List (List Nat) :=
  (splitOnSlash (stripSlashes uriPath)).filter (fun s => ¬ s.isEmpty)

/-- `_build_coap_request(msg_type, code, message_id, token, uri_path)`.

The first header byte `(ver << 6) | (msg_type << 4) | (tkl & 0x0F)` is
written `64 * COAP_VERSION + msgType % 4 * 16 + tkl % 16`; this agrees with
the bitwise form for `msg_type < 4` (the source passes `TYPE_CON`/`TYPE_NON`
only; `msg_type & 0x03`-sized values are the representable message types).
Likewise `(code[0] << 5) | code[1]` is `code.1 * 32 + code.2` for the
in-range code pairs the source uses.  `uri_path` is the UTF-8 byte string of
the Python argument. -/
def buildCoapRequest (msgType : Nat) (code : Nat × Nat) (messageId : Nat)
    (token : List Nat) (uriPath : List Nat) : List Nat :=
  let tkl := token.length
  let firstByte := 64 * COAP_VERSION + msgType % 4 * 16 + tkl % 16
  let codeByte := code.1 * 32 + code.2
  let header := firstByte :: codeByte :: packH messageId
  header ++ token ++ buildOptionsAux 0 (pathSegments uriPath)

/-! ## CoAP message decoding (src/protocols/coap.py, `_parse_coap_response`)

The option loop indexes `data[offset]` and `struct.unpack("!H",
data[offset:offset+2])`; on a truncated datagram these raise `IndexError`
resp. `struct.error`, which the function does not catch.  `Except.error ()`
models such an escaped exception; `Except.ok none` models `return None`. -/

/-- Reading the extended delta/length field.  `nib` is the 4-bit field:
13 → one extra byte (`data[offset]`, `IndexError` when absent), 14 → two
extra bytes (`struct.unpack("!H", ...)`, `struct.error` when fewer than two
remain), otherwise the nibble itself. -/
def readExt (nib : Nat) (data : List Nat) : Except Unit (Nat × List Nat) :=
  if nib = 13 then
    match data with
    | [] => .error ()
    | b :: rest => .ok (b + 13, rest)
  else if nib = 14 then
    match data with
    | b1 :: b2 :: rest => .ok (b1 * 256 + b2 + 269, rest)
    | _ => .error ()
  else .ok (nib, data)

/-- The `while offset < len(data)` option loop of `_parse_coap_response`,
expressed as recursion on the unread suffix.  Returns the option list and the
payload (the bytes after a `0xFF` marker; `[]` when the data ends without
one, matching `payload = data[offset:] if offset < len(data) else b""`). -/
def parseOptionsLoop (data : List Nat) (prevOptionNum : Nat) :
    Except Unit (List (Nat × List Nat) × List Nat) :=
  match data with
  | [] => .ok ([], [])
  | optByte :: rest =>
    if optByte = PAYLOAD_MARKER then .ok ([], rest)
    else
      match hd : readExt (optByte / 16 % 16) rest with
      | .error _ => .error ()
      | .ok (delta, rest1) =>
        match hl : readExt (optByte % 16) rest1 with
        | .error _ => .error ()
        | .ok (length, rest2) =>
          let optionNum := prevOptionNum + delta
          match parseOptionsLoop (rest2.drop length) optionNum with
          | .error e => .error e
          | .ok (opts, payload) =>
              .ok ((optionNum, rest2.take length) :: opts, payload)
  termination_by data.length
  decreasing_by
    have key : ∀ (nib : Nat) (d out : List Nat) (n : Nat),
        readExt nib d = .ok (n, out) → out.length ≤ d.length := by
      intro nib d out n h
      unfold readExt at h
      split at h
      · cases d with
        | nil => cases h
        | cons b rest0 => cases h; simp
      · split at h
        · cases d with
          | nil => cases h
          | cons b1 rest1 =>
            cases rest1 with
            | nil => cases h
            | cons b2 rest2 =>
              cases h
              simp
              omega
        · cases h
          exact le_refl _
    have h1 := key _ _ _ _ hd
    have h2 := key _ _ _ _ hl
    simp only [List.length_drop, List.length_cons]
    omega

/-- The parsed message structure returned by `_parse_coap_response`. -/
structure CoapMessage where
  version : Nat
  type : Nat
  code : Nat × Nat
  messageId : Nat
  token : List Nat
  options : List (Nat × List Nat)
  payload : List Nat
deriving DecidableEq, Repr

/-- `_parse_coap_response(data)`.  `Except.ok none` is Python `None`
(message shorter than 4 bytes, or wrong version); `Except.error ()` is an
exception escaping the function (see `parseOptionsLoop`). -/
def parseCoapResponse (data : List Nat) : Except Unit (Option CoapMessage) :=
  match data with
  | b0 :: b1 :: b2 :: b3 :: rest =>
    let version := b0 / 64 % 4
    let msgType := b0 / 16 % 4
    let tkl := b0 % 16
    if version ≠ COAP_VERSION then .ok none
    else
      let codeClass := b1 / 32 % 8
      let codeDetail := b1 % 32
      let token := rest.take tkl
      match parseOptionsLoop (rest.drop tkl) 0 with
      | .error e => .error e
      | .ok (options, payload) =>
          .ok (some { version := version, type := msgType,
                      code := (codeClass, codeDetail), messageId := b2 * 256 + b3,
                      token := token, options := options, payload := payload })
  | _ => .ok none

/-- `"/".join(segments)` at byte level: the canonical Uri-Path string whose
segments are `segs`. -/
def joinSegs : List (List Nat) → List Nat
  | [] => []
  | [s] => s
  | s :: rest => s ++ 47 :: joinSegs rest

/-- The Uri-Path (option 11) values of a parsed message. -/
def uriPathOptionValues (m : CoapMessage) : List (List Nat) :=
  (m.options.filter (fun o => o.1 = OPTION_URI_PATH)).map Prod.snd

/-! ## CoRE Link Format parsing (src/protocols/coap.py, `_parse_link_format`)

The function is driven by three regular expressions; each is embedded as a
character scanner with exactly the matching behaviour of its pattern:

* `re.split(r",(?=\s*<)", ...)` — split at every comma followed by optional
  whitespace and `<` (the lookahead is not consumed);
* `re.match(r"<([^>]+)>", entry)` — an anchored match: `<`, one or more
  non-`>` characters (greedy; no backtracking is possible since `>` is
  excluded from the class), then `>`;
* `re.finditer(r';([^;=]+)(?:=(?:"([^"]*)"|([^;,]*)))?', ...)` — scan for
  `;`, a non-empty greedy run of non-`;=` characters as the key, then an
  optional `=` with either a quoted or an unquoted value (quoted preferred;
  if the opening quote has no closing quote the unquoted branch applies).

`scanAttrs` uses a fuel argument equal to the input length for structural
recursion; each scanner step consumes at least one character, so the fuel
never runs out on the initial call. -/

/-- Python `\s` for the ASCII whitespace characters `str.strip()` removes. -/
def pyIsSpace (c : Char) : Bool :=
  c = ' ' || c = '\t' || c = '\n' || c = '\r' || c = '\x0b' || c = '\x0c'

/-- `str.strip()` on a character list. -/
def pyStripChars (s : List Char) : List Char :=
  ((s.dropWhile pyIsSpace).reverse.dropWhile pyIsSpace).reverse

/-- The `(?=\s*<)` lookahead of the entry-splitting regex. -/
def lookaheadAngleOpen (cs : List Char) : Bool :=
  match cs.dropWhile pyIsSpace with
  | '<' :: _ => true
  | _ => false

/-- `re.split(r",(?=\s*<)", payload)`: pieces between the matched commas. -/
def splitEntriesAux : List Char → List (List Char)
  | [] => [[]]
  | c :: rest =>
      if c = ',' && lookaheadAngleOpen rest then [] :: splitEntriesAux rest
      else
        match splitEntriesAux rest with
        | s :: ss => (c :: s) :: ss
        | [] => [[c]]

/-- `re.match(r"<([^>]+)>", entry)`: returns the captured URI characters and
the suffix after the closing `>`, or `none` when the entry does not start
with a bracketed URI. -/
def matchAngleUri (entry : List Char) : Option (List Char × List Char) :=
  match entry with
  | '<' :: rest =>
      let inner := rest.takeWhile (fun c => c ≠ '>')
      if inner.isEmpty then none
      else
        match rest.drop inner.length with
        | '>' :: after => some (inner, after)
        | _ => none
  | _ => none

/-- The unquoted-value branch `([^;,]*)`: greedy run of non-`;,` characters
and the rest of the input. -/
def scanUnquoted (cs : List Char) : List Char × List Char :=
  let v := cs.takeWhile (fun c => c ≠ ';' && c ≠ ',')
  (v, cs.drop v.length)

/-- `re.finditer(r';([^;=]+)(?:=(?:"([^"]*)"|([^;,]*)))?', attrs)`: the list
of (key characters, optional value characters) in match order; `none` as the
value is a bare boolean attribute. -/
def scanAttrs : Nat → List Char → List (List Char × Option (List Char))
  | 0, _ => []
  | _, [] => []
  | fuel + 1, c :: rest =>
      if c = ';' then
        let key := rest.takeWhile (fun ch => ch ≠ ';' && ch ≠ '=')
        if key.isEmpty then scanAttrs fuel rest
        else
          match rest.drop key.length with
          | '=' :: rest3 =>
              match rest3 with
              | '"' :: rest4 =>
                  let inner := rest4.takeWhile (fun ch => ch ≠ '"')
                  match rest4.drop inner.length with
                  | '"' :: rest6 => (key, some inner) :: scanAttrs fuel rest6
                  | _ =>
                      let p := scanUnquoted rest3
                      (key, some p.1) :: scanAttrs fuel p.2
              | _ =>
                  let p := scanUnquoted rest3
                  (key, some p.1) :: scanAttrs fuel p.2
          | rest2 => (key, none) :: scanAttrs fuel rest2
      else scanAttrs fuel rest

/-- A value in a parsed link-format resource dict: a string, or Python
`True` for a bare attribute. -/
inductive LinkVal where
  | str (s : String)
  | flag
deriving DecidableEq, Repr

/-- Python dict assignment `d[k] = v`: replaces in place or appends. -/
def assocSet (l : List (String × LinkVal)) (k : String) (v : LinkVal) :
    List (String × LinkVal) :=
  match l with
  | [] => [(k, v)]
  | (k0, v0) :: rest => if k0 = k then (k, v) :: rest else (k0, v0) :: assocSet rest k v

/-- `_parse_link_format(payload)`: each resource is the insertion-ordered
dict of its keys, starting with `"uri"`. -/
def parseLinkFormat (payload : String) : List (List (String × LinkVal)) :=
  let stripped := pyStripChars payload.toList
  if stripped.isEmpty then []
  else
    (splitEntriesAux stripped).foldl (fun acc entryRaw =>
      let entry := pyStripChars entryRaw
      if entry.isEmpty then acc
      else
        match matchAngleUri entry with
        | none => acc
        | some (uri, after) =>
            let base := [("uri", LinkVal.str (String.mk uri))]
            let resource := (scanAttrs after.length after).foldl (fun res kv =>
              match kv.2 with
              | some v => assocSet res (String.mk (pyStripChars kv.1))
                  (.str (String.mk (pyStripChars v)))
              | none => assocSet res (String.mk (pyStripChars kv.1)) .flag) base
            acc ++ [resource]) []

/-! ## Generic Python string / dict helpers used across modules -/

/-- `d.get(k)` on an insertion-ordered dict modelled as an association list
(keys unique when built with `assocSet` / `assocSetD`). -/
def dictGet {β : Type} (l : List (String × β)) (k : String) : Option β :=
  (l.find? (fun kv => kv.1 = k)).map Prod.snd

/-- Python dict assignment `d[k] = v` on an association list: replaces the
existing entry in place (keeping insertion order) or appends. -/
def assocSetD {β : Type} (l : List (String × β)) (k : String) (v : β) :
    List (String × β) :=
  match l with
  | [] => [(k, v)]
  | (k0, v0) :: rest =>
      if k0 = k then (k, v) :: rest else (k0, v0) :: assocSetD rest k v

/-- `str.split(sep)` for a non-empty separator, with explicit fuel for
structural recursion; each step consumes at least one character, so
`fuel = length` never runs out.  Mirrors Python: empty pieces are kept. -/
def splitOnSubF : Nat → List Char → List Char → List (List Char)
  | 0, cs, _ => [cs]
  | fuel + 1, cs, needle =>
      match cs with
      | [] => [[]]
      | c :: rest =>
          if needle.isPrefixOf (c :: rest) then
            [] :: splitOnSubF fuel ((c :: rest).drop needle.length) needle
          else
            match splitOnSubF fuel rest needle with
            | s :: ss => (c :: s) :: ss
            | [] => [[c]]

/-- `s.split(sep)` (Python, non-empty `sep`). -/
def pySplitOnStr (s sep : String) : List String :=
  (splitOnSubF s.toList.length s.toList sep.toList).map String.mk

/-- `needle in hay` (Python substring test, non-empty `needle`). -/
def pyInStr (needle hay : String) : Bool :=
  (pySplitOnStr hay needle).length > 1

/-- Python `x or y` for string-or-None operands: `None` and `""` are falsy. -/
def pyOrOpt (a b : Option String) : Option String :=
  match a with
  | none => b
  | some s => if s = "" then b else some s

/-- Python truthiness of a string-or-None value. -/
def truthy (o : Option String) : Bool :=
  match o with
  | none => false
  | some s => s ≠ ""

/-- `str.split()` (no argument): split on whitespace runs, no empty pieces. -/
def splitWsAux : List Char → List Char → List (List Char)
  | [], acc => if acc.isEmpty then [] else [acc.reverse]
  | c :: rest, acc =>
      if pyIsSpace c then
        if acc.isEmpty then splitWsAux rest []
        else acc.reverse :: splitWsAux rest []
      else splitWsAux rest (c :: acc)

/-- `s.split()` (Python). -/
def pySplitWs (s : String) : List String :=
  (splitWsAux s.toList []).map String.mk

/-- ASCII `str.lower()` (the inputs at issue are ASCII; kernel-reducible,
unlike `String.toLower`). -/
def pyCharLower (c : Char) : Char :=
  if 'A' ≤ c ∧ c ≤ 'Z' then Char.ofNat (c.toNat + 32) else c

/-- `s.lower()`. -/
def pyToLower (s : String) : String :=
  String.mk (s.toList.map pyCharLower)

/-- Decimal digit-string to `Nat` (`none` when empty or non-digit). -/
def pyToNatOpt (s : String) : Option Nat :=
  let cs := s.toList
  if cs.isEmpty then none
  else if ¬ cs.all Char.isDigit then none
  else some (cs.foldl (fun acc c => acc * 10 + (c.toNat - 48)) 0)

/-! ## IPv4 addresses (Python `ipaddress` as used by the SSRF guards)

Only IPv4 is modelled; the SSDP/UPnP discovery sources are IPv4 networks.
`isPrivate` lists the IPv4 private networks of the `ipaddress` module. -/

structure IPv4 where
  o1 : Nat
  o2 : Nat
  o3 : Nat
  o4 : Nat
deriving DecidableEq, Repr

/-- `ipaddress.IPv4Address.is_private`. -/
def IPv4.isPrivate (ip : IPv4) : Bool :=
  ip.o1 = 0 ∨ ip.o1 = 10 ∨ ip.o1 = 127 ∨
  (ip.o1 = 169 ∧ ip.o2 = 254) ∨
  (ip.o1 = 172 ∧ 16 ≤ ip.o2 ∧ ip.o2 ≤ 31) ∨
  (ip.o1 = 192 ∧ ip.o2 = 0 ∧ ip.o3 = 0 ∧ ip.o4 ≤ 7) ∨
  (ip.o1 = 192 ∧ ip.o2 = 0 ∧ ip.o3 = 0 ∧ (ip.o4 = 170 ∨ ip.o4 = 171)) ∨
  (ip.o1 = 192 ∧ ip.o2 = 0 ∧ ip.o3 = 2) ∨
  (ip.o1 = 192 ∧ ip.o2 = 168) ∨
  (ip.o1 = 198 ∧ (ip.o2 = 18 ∨ ip.o2 = 19)) ∨
  (ip.o1 = 198 ∧ ip.o2 = 51 ∧ ip.o3 = 100) ∨
  (ip.o1 = 203 ∧ ip.o2 = 0 ∧ ip.o3 = 113) ∨
  240 ≤ ip.o1

/-- `is_link_local` (169.254.0.0/16). -/
def IPv4.isLinkLocal (ip : IPv4) : Bool := ip.o1 = 169 ∧ ip.o2 = 254

/-- `is_loopback` (127.0.0.0/8). -/
def IPv4.isLoopback (ip : IPv4) : Bool := ip.o1 = 127

/-- The disjunction `ip.is_private or ip.is_link_local or ip.is_loopback`
tested by both LOCATION fetchers and by `_is_safe_ip`. -/
def IPv4.isAllowed (ip : IPv4) : Bool :=
  ip.isPrivate || ip.isLinkLocal || ip.isLoopback

/-- One octet of a dotted quad as accepted by `ipaddress.ip_address`:
decimal digits, value ≤ 255, no leading zero. -/
def parseOctet (s : String) : Option Nat :=
  let cs := s.toList
  if cs.isEmpty then none
  else if ¬ cs.all Char.isDigit then none
  else if cs.length > 1 ∧ cs.headD ' ' = '0' then none
  else match pyToNatOpt s with
    | some n => if n ≤ 255 then some n else none
    | none => none

/-- `ipaddress.ip_address(s)` restricted to IPv4 dotted quads; `none` models
the `ValueError` branch. -/
def parseIPv4 (s : String) : Option IPv4 :=
  match pySplitOnStr s "." with
  | [a, b, c, d] =>
      match parseOctet a, parseOctet b, parseOctet c, parseOctet d with
      | some x1, some x2, some x3, some x4 => some ⟨x1, x2, x3, x4⟩
      | _, _, _, _ => none
  | _ => none

/-! ## URL parsing (`urllib.parse.urlparse` as used by the LOCATION guards)

Only the absolute `scheme://netloc/...` shape is modelled; a URL without
`"://"` yields no hostname (as `urlparse` does for the LOCATION values at
issue), which makes both guards reject it. -/

structure UrlParts where
  scheme : String := ""
  host : Option String := none
  port : Option Nat := none
deriving DecidableEq, Repr

/-- `urlparse(url)` restricted to the fields the source reads
(`scheme`, `hostname`, `port`). -/
def pyUrlparse (url : String) : UrlParts :=
  match pySplitOnStr url "://" with
  | schemePart :: rest1 :: restTail =>
      let afterScheme := String.intercalate "://" (rest1 :: restTail)
      let netloc := (pySplitOnStr afterScheme "/").headD ""
      let afterAt := (pySplitOnStr netloc "@").getLastD ""
      let hostPort := pySplitOnStr afterAt ":"
      let hostStr := hostPort.headD ""
      { scheme := pyToLower schemePart,
        host := if hostStr = "" then none else some (pyToLower hostStr),
        port :=
          match hostPort with
          | _ :: p :: _ => pyToNatOpt p
          | _ => none }
  | _ => {}

/-! ## The unified device record (src/protocols/enrichment.py, `DeviceInfo`)

`raw_data` is `dict[str, Any]` in the source; the embedding flattens it into
the typed fields the enrichers actually read.  mDNS TXT keys/values arrive
as `bytes` and are decoded with UTF-8-with-replacement before use; the
embedding stores them already decoded.  `reprStr` stands for the Python
`str(raw_data)` rendering used only inside the classifier's search blob. -/

structure CoapResourceEntry where
  uri : String := ""
  rt : Option String := none
  ifDesc : Option String := none
  ct : Option String := none
  observable : Bool := false
  title : Option String := none
deriving DecidableEq, Repr, Inhabited

structure RawData where
  address : Option String := none
  name : Option String := none
  addresses : List String := []
  port : Option Nat := none
  brokerName : Option String := none
  deviceType : Option String := none
  location : Option String := none
  properties : List (String × String) := []
  response : Option String := none
  metadata : List (String × String) := []
  tlsSupported : Bool := false
  resources : List CoapResourceEntry := []
  reprStr : String := ""
deriving DecidableEq, Repr, Inhabited

structure ServiceEntry where
  port : Nat := 0
  name : String := ""
  banner : String := ""
  tls : Bool := false
deriving DecidableEq, Repr, Inhabited

structure DeviceInfo where
  protocol : String := ""
  address : String := ""
  port : Option Nat := none
  raw_data : RawData := {}
  friendly_name : Option String := none
  manufacturer : Option String := none
  model : Option String := none
  firmware_version : Option String := none
  serial_number : Option String := none
  device_url : Option String := none
  device_category : Option String := none
  device_tags : List String := []
  os_guess : Option String := none
  services : List ServiceEntry := []
  banners : List (Nat × String) := []
  enrichment_errors : List String := []
deriving DecidableEq, Repr, Inhabited

/-! ## Enricher stages and the pipeline
(src/protocols/enrichment.py, `Enricher`, `EnrichmentPipeline`)

A stage is `name`, `can_enrich`, `enrich`.  Either operation may raise; a
raised exception is `Except.error` carrying the exception text (and, for
`enrich`, the device state at the moment of the raise — the source mutates
the device in place, so partial mutations survive a raise). -/

structure Stage where
  name : String
  canEnrich : DeviceInfo → Except String Bool
  enrich : DeviceInfo → Except (String × DeviceInfo) DeviceInfo

/-- One iteration of the `for enricher in self._enrichers` loop of
`enrich_device`: run `can_enrich` then `enrich`, and on any exception append
`f"{enricher.name}: {exc}"` to `enrichment_errors` and continue. -/
def stepStage (d : DeviceInfo) (s : Stage) : DeviceInfo :=
  match s.canEnrich d with
  | .error e =>
      { d with enrichment_errors := d.enrichment_errors ++ [s.name ++ ": " ++ e] }
  | .ok false => d
  | .ok true =>
      match s.enrich d with
      | .ok d1 => d1
      | .error (e, d1) =>
          { d1 with enrichment_errors := d1.enrichment_errors ++ [s.name ++ ": " ++ e] }

/-- `EnrichmentPipeline.enrich_device`. -/
def enrichDevice (stages : List Stage) (d : DeviceInfo) : DeviceInfo :=
  stages.foldl stepStage d

/-- The `as_completed` loop of `enrich_all`: `order` is the order in which
the pool's futures complete (any order), and `results[idx] = ...` places
each outcome back at the device's original index.  `resOk idx` is whether
`future.result()` returned normally (the `except` branch falls back to the
raw input device). -/
def poolRun (stages : List Stage) (devices : List DeviceInfo) (order : List Nat)
    (resOk : Nat → Bool) : List (Option DeviceInfo) :=
  order.foldl
    (fun acc idx =>
      acc.set idx (some (if resOk idx then enrichDevice stages (devices.getD idx {})
                         else devices.getD idx {})))
    (List.replicate devices.length none)

/-- `EnrichmentPipeline.enrich_all`. -/
def enrichAll (stages : List Stage) (devices : List DeviceInfo) (order : List Nat)
    (resOk : Nat → Bool) : List DeviceInfo :=
  if devices.isEmpty then devices
  else (poolRun stages devices order resOk).filterMap id

/-! ## Fingerprints and merging them back
(src/protocols/enrichment.py, `fingerprint_dict`, `apply_enrichment`,
`devices_from_results`) -/

structure Fingerprint where
  manufacturer : Option String := none
  model : Option String := none
  firmware_version : Option String := none
  serial_number : Option String := none
  device_url : Option String := none
  device_category : Option String := none
  device_tags : List String := []
  os_guess : Option String := none
  services : List ServiceEntry := []
  banners : List (String × String) := []
deriving DecidableEq, Repr, Inhabited

/-- `fingerprint_dict(dev)`. -/
def fingerprintDict (dev : DeviceInfo) : Fingerprint :=
  { manufacturer := dev.manufacturer
    model := dev.model
    firmware_version := dev.firmware_version
    serial_number := dev.serial_number
    device_url := dev.device_url
    device_category := dev.device_category
    device_tags := dev.device_tags
    os_guess := dev.os_guess
    services := dev.services
    banners := dev.banners.map (fun kv => (toString kv.1, kv.2)) }

/-- A raw per-protocol record as it sits in the results dict: its data plus
the optional `"fingerprint"` entry added by `apply_enrichment`. -/
structure RawRecord where
  data : RawData := {}
  fingerprint : Option Fingerprint := none
deriving DecidableEq, Repr, Inhabited

/-- The discovery results dict, keyed by protocol name;
`results.get(proto, [])` is function application. -/
abbrev Results := String → List RawRecord

/-- One step of the `for dev in enriched` loop of `apply_enrichment`. -/
def applyEnrichmentStep (st : Results × (String → Nat)) (dev : DeviceInfo) :
    Results × (String → Nat) :=
  let proto := dev.protocol
  let idx := st.2 proto
  let protoList := st.1 proto
  let res :=
    if idx < protoList.length then
      Function.update st.1 proto
        (protoList.modify
          (fun r0 => { r0 with fingerprint := some (fingerprintDict dev) }) idx)
    else st.1
  (res, Function.update st.2 proto (idx + 1))

/-- `apply_enrichment(results, enriched)`; the counters dict starts at 0 for
every protocol (`counters.get(proto, 0)`). -/
def applyEnrichment (results : Results) (enriched : List DeviceInfo) : Results :=
  (enriched.foldl applyEnrichmentStep (results, fun _ => 0)).1

/-- `devices_from_results`: the upnp branch. -/
def upnpToDevice (raw : RawRecord) : DeviceInfo :=
  { protocol := "upnp", address := raw.data.address.getD "", raw_data := raw.data,
    friendly_name := raw.data.name }

/-- `devices_from_results`: the mdns branch (`addrs[0] if addrs else ""`). -/
def mdnsToDevice (raw : RawRecord) : DeviceInfo :=
  { protocol := "mdns", address := raw.data.addresses.headD "",
    port := raw.data.port, raw_data := raw.data, friendly_name := raw.data.name }

/-- `devices_from_results`: the wsd branch. -/
def wsdToDevice (raw : RawRecord) : DeviceInfo :=
  { protocol := "wsd", address := raw.data.address.getD "", raw_data := raw.data }

/-- `devices_from_results`: the mqtt branch (`raw.get("port", 1883)`). -/
def mqttToDevice (raw : RawRecord) : DeviceInfo :=
  { protocol := "mqtt", address := raw.data.address.getD "",
    port := some (raw.data.port.getD 1883), raw_data := raw.data,
    friendly_name := raw.data.brokerName }

/-- `devices_from_results`: the coap branch (`raw.get("port", 5683)`). -/
def coapToDevice (raw : RawRecord) : DeviceInfo :=
  { protocol := "coap", address := raw.data.address.getD "",
    port := some (raw.data.port.getD 5683), raw_data := raw.data,
    friendly_name := raw.data.deviceType }

/-- `devices_from_results(results)`. -/
def devicesFromResults (r : Results) : List DeviceInfo :=
  (r "upnp").map upnpToDevice ++ (r "mdns").map mdnsToDevice ++
  (r "wsd").map wsdToDevice ++ (r "mqtt").map mqttToDevice ++
  (r "coap").map coapToDevice

/-- The fingerprints of the devices of protocol `p`, in order. -/
def protoFingerprints (p : String) (enriched : List DeviceInfo) : List Fingerprint :=
  (enriched.filter (fun d => d.protocol = p)).map fingerprintDict

/-- Attaching a list of fingerprints at successive indices from `start`
(out-of-range indices are skipped, like the `if idx < len(proto_list)`
guard). -/
def attachFrom (l : List RawRecord) (start : Nat) : List Fingerprint → List RawRecord
  | [] => l
  | f :: rest =>
      attachFrom
        (if start < l.length then
          l.modify (fun r0 => { r0 with fingerprint := some f }) start
        else l) (start + 1) rest

/-- A stage that never drops entries already in `enrichment_errors` (every
stage of the source only ever appends to that list). -/
def stagePreservesErrors (s : Stage) : Prop :=
  ∀ d : DeviceInfo,
    (∀ d1, s.enrich d = .ok d1 →
      ∀ e ∈ d.enrichment_errors, e ∈ d1.enrichment_errors) ∧
    (∀ msg d1, s.enrich d = .error (msg, d1) →
      ∀ e ∈ d.enrichment_errors, e ∈ d1.enrichment_errors)

/-- A stage whose `can_enrich` raises, used as concrete witness input. -/
def boomStage : Stage :=
  { name := "boom_stage", canEnrich := fun _ => .error "fail",
    enrich := fun d => .ok d }

/-- A benign tag-appending stage, used as concrete witness input. -/
def taggerStage : Stage :=
  { name := "tagger", canEnrich := fun _ => .ok true,
    enrich := fun d => .ok { d with device_tags := d.device_tags ++ ["t"] } }

/-! ## Taxonomy classification (src/protocols/taxonomy.py)

A compiled regex pattern is abstracted as a Boolean predicate on the search
blob (`p.search(blob)` is a pure function of `blob`); `DeviceClassifier`
accepts any rule list through its constructor.  `str(raw_data)` and
`str(svc)` renderings feed only the search blob and are abstracted: the raw
dict rendering is the stored `reprStr`, the service rendering lists the
fields. -/

structure TaxonomyRule where
  category : String
  tags : List String
  patterns : List (String → Bool)
  priority : Nat := 0

/-- The rendering of a service dict inside the search blob. -/
def serviceRepr (s : ServiceEntry) : String :=
  "port=" ++ toString s.port ++ " name=" ++ s.name ++ " banner=" ++ s.banner ++
    " tls=" ++ toString s.tls

/-- `_build_search_blob(device)`: `" ".join(parts)`. -/
def buildSearchBlob (device : DeviceInfo) : String :=
  String.intercalate " "
    ([device.friendly_name.getD "", device.manufacturer.getD "",
      device.model.getD "", device.firmware_version.getD "",
      device.os_guess.getD "", device.raw_data.reprStr] ++
     device.banners.map Prod.snd ++
     device.services.map serviceRepr ++
     device.device_tags)

/-- `sorted(rules, key=lambda r: -r.priority)`: stable descending sort by
priority (insertion sort is stable for this total preorder, as Python's
`sorted` is). -/
def sortRulesByPriority (rules : List TaxonomyRule) : List TaxonomyRule :=
  List.insertionSort (fun a b => b.priority ≤ a.priority) rules

/-- Python `list(set(device.device_tags + rule.tags))`: the element set of
the concatenation (the iteration order of a Python set is unspecified; the
embedding uses first-occurrence order). -/
def mergeTags (a b : List String) : List String :=
  (a ++ b).dedup

/-- Python `device.device_category or "unknown"`. -/
def pyOrUnknown (c : Option String) : String :=
  match c with
  | none => "unknown"
  | some s => if s = "" then "unknown" else s

/-- Whether a rule matches: `any(p.search(blob) for p in rule.patterns)`. -/
def ruleMatches (blob : String) (r : TaxonomyRule) : Bool :=
  r.patterns.any (fun p => p blob)

/-- `DeviceClassifier.enrich(device)` over the classifier's (already sorted)
rule list `_rules`. -/
def classifierEnrich (sortedRules : List TaxonomyRule) (device : DeviceInfo) :
    DeviceInfo :=
  let blob := buildSearchBlob device
  match sortedRules.find? (ruleMatches blob) with
  | some r =>
      { device with device_category := some r.category,
                    device_tags := mergeTags device.device_tags r.tags }
  | none =>
      { device with device_category := some (pyOrUnknown device.device_category) }

/-- `DeviceClassifier(rules)` as a pipeline stage (`can_enrich` is `True`,
classification never raises). -/
def deviceClassifierStage (rules : List TaxonomyRule) : Stage :=
  { name := "device_classifier",
    canEnrich := fun _ => .ok true,
    enrich := fun d => .ok (classifierEnrich (sortRulesByPriority rules) d) }

/-- A rule whose single pattern never fires on the witness device, and a
device that reaches the classifier with a category already assigned: the
concrete inputs of the C4 counterexample. -/
def sentinelRule : TaxonomyRule :=
  { category := "camera", tags := ["surveillance"],
    patterns := [fun blob => pyInStr "no-match-sentinel" blob], priority := 10 }

/-- A device whose `device_category` was filled by an earlier stage. -/
def presetCategoryDevice : DeviceInfo :=
  { protocol := "coap", device_category := some "sensor" }

/-- A device on which `sentinelRule`'s pattern fires. -/
def sentinelMatchingDevice : DeviceInfo :=
  { protocol := "upnp", friendly_name := some "says no-match-sentinel here" }

/-! ## LOCATION description fetches and their SSRF guard
(src/protocols/upnp.py `enrich_device_info`;
src/protocols/enrichment.py `UPnPDeepEnricher.enrich`)

Network and XML-library effects are an explicit oracle:

* `Network.resolve` is `socket.gethostbyname` followed by
  `ipaddress.ip_address`; `none` is a resolution failure (exception).
* `Network.fetch` is `session.get(...)`; `Except.error` is a raised
  `requests` exception carrying its text.  The request record captures the
  URL and the `allow_redirects=False` / `session.trust_env=False` settings
  the source passes, so a theorem can speak about every issued request.
* `HttpResponse.xml` is the outcome of `defusedxml.ElementTree.fromstring`
  on the body (`Except.error` a parse exception), and `UpnpDeviceNode` holds
  the texts the source extracts from the device node, with `none` for a
  missing or falsy element.  `chunkSizes` are the sizes of the
  `iter_content` chunks of the body; the source returns the device unchanged
  as soon as the running total exceeds 1 MiB, which happens on some prefix
  iff the total exceeds 1 MiB. -/

structure UpnpDeviceNode where
  friendlyName : Option String := none
  deviceType : Option String := none
  manufacturer : Option String := none
  modelName : Option String := none
  modelNumber : Option String := none
  firmwareVersion : Option String := none
  serialNumber : Option String := none
  udn : Option String := none
  presentationURL : Option String := none
  urlBase : Option String := none
  serviceTypes : List String := []

structure UpnpXmlDoc where
  deviceNode : Option UpnpDeviceNode := none

structure FetchRequest where
  url : String
  allowRedirects : Bool
  trustEnv : Bool
deriving DecidableEq, Repr

structure HttpResponse where
  status : Nat
  contentType : Option String := none
  chunkSizes : List Nat := []
  xml : Except String UpnpXmlDoc := .error "xml"

structure Network where
  resolve : String → Option IPv4
  fetch : FetchRequest → Except String HttpResponse

/-- `ipaddress.ip_address(host)`, falling back to
`ip_address(socket.gethostbyname(host))` on `ValueError`; `none` models the
`except` that aborts the fetch. -/
def resolveLocationHost (net : Network) (host : String) : Option IPv4 :=
  match parseIPv4 host with
  | some ip => some ip
  | none => net.resolve host

/-- The shared SSRF guard of both fetchers: scheme http/https, a hostname
that is or resolves to an allowed IP. -/
def ssrfAllows (net : Network) (location : String) : Bool :=
  let parsed := pyUrlparse location
  if ¬ (parsed.scheme = "http" ∨ parsed.scheme = "https") then false
  else
    match parsed.host with
    | none => false
    | some host =>
        match resolveLocationHost net host with
        | none => false
        | some ip => ip.isAllowed

/-- An SSDP response record: the case-normalised header dict of
`UPnPDiscovery.parse_response`. -/
abbrev SsdpRecord := List (String × String)

/-- `UPnPDiscovery.enrich_device_info(device)` (src/protocols/upnp.py).
Returns the updated record and the request issued, if any
(`none` = no fetch was attempted).  All exceptions inside the `try` are
swallowed, leaving the record as it was. -/
def enrichDeviceInfo (net : Network) (device : SsdpRecord) :
    SsdpRecord × Option FetchRequest :=
  match dictGet device "LOCATION" with
  | none => (device, none)
  | some location =>
    if location = "" then (device, none)
    else
      let parsed := pyUrlparse location
      if ¬ (parsed.scheme = "http" ∨ parsed.scheme = "https") then (device, none)
      else
        match parsed.host with
        | none => (device, none)
        | some host =>
          match resolveLocationHost net host with
          | none => (device, none)
          | some ip =>
            if ¬ ip.isAllowed then (device, none)
            else
              let req : FetchRequest :=
                { url := location, allowRedirects := false, trustEnv := false }
              match net.fetch req with
              | .error _ => (device, some req)
              | .ok resp =>
                if resp.status = 200 then
                  match resp.xml with
                  | .error _ => (device, some req)
                  | .ok doc =>
                    match doc.deviceNode with
                    | none => (device, some req)
                    | some dn =>
                      let d1 := match dn.friendlyName with
                        | some fn => if fn ≠ "" then assocSetD device "name" fn
                                     else device
                        | none => device
                      let d2 := match dn.deviceType with
                        | some dt => if dt ≠ "" then assocSetD d1 "type" dt else d1
                        | none => d1
                      (d2, some req)
                else (device, some req)

/-- `svc_type.split(":")[-2] if ":" in svc_type else svc_type`. -/
def upnpServiceShortName (svcType : String) : String :=
  if pyInStr ":" svcType then
    let parts := pySplitOnStr svcType ":"
    parts.getD (parts.length - 2) ""
  else svcType

/-- The assignment section of `UPnPDeepEnricher.enrich` once the device
node of the description XML is in hand (src/protocols/enrichment.py lines
202-229). -/
def upnpApplyDeviceXml (parsed : UrlParts) (location : String)
    (dn : UpnpDeviceNode) (device : DeviceInfo) : DeviceInfo :=
  let afterFields :=
    { device with
      friendly_name := pyOrOpt device.friendly_name dn.friendlyName,
      manufacturer := dn.manufacturer,
      model := pyOrOpt dn.modelName dn.modelNumber,
      firmware_version :=
        if truthy dn.firmwareVersion then dn.firmwareVersion
        else if truthy dn.modelNumber ∧ truthy dn.modelName then dn.modelNumber
        else device.firmware_version,
      serial_number := pyOrOpt dn.serialNumber dn.udn,
      device_url := pyOrOpt dn.presentationURL
        (pyOrOpt dn.urlBase (some location)) }
  { afterFields with
    services := afterFields.services ++
      (dn.serviceTypes.filter (fun t => t ≠ "")).map (fun svcType =>
        { port := parsed.port.getD (if parsed.scheme = "https" then 443 else 80),
          name := upnpServiceShortName svcType,
          banner := svcType,
          tls := parsed.scheme = "https" }) }

/-- `UPnPDeepEnricher.can_enrich(device)`. -/
def upnpDeepCanEnrich (device : DeviceInfo) : Bool :=
  device.protocol = "upnp" && truthy device.raw_data.location

/-- `UPnPDeepEnricher.enrich(device)` (src/protocols/enrichment.py).
Returns the updated device and the request issued, if any.  Unlike the
discovery-time fetch, exceptions raised after the guard append an
`"upnp_deep: ..."` entry to `enrichment_errors`. -/
def upnpDeepEnrich (net : Network) (device : DeviceInfo) :
    DeviceInfo × Option FetchRequest :=
  let location := device.raw_data.location.getD ""
  if location = "" then (device, none)
  else
    let parsed := pyUrlparse location
    if ¬ (parsed.scheme = "http" ∨ parsed.scheme = "https") then (device, none)
    else
      match parsed.host with
      | none => (device, none)
      | some host =>
        match resolveLocationHost net host with
        | none => (device, none)
        | some ip =>
          if ¬ ip.isAllowed then (device, none)
          else
            let req : FetchRequest :=
              { url := location, allowRedirects := false, trustEnv := false }
            match net.fetch req with
            | .error e =>
              ({ device with enrichment_errors :=
                  device.enrichment_errors ++ ["upnp_deep: " ++ e] }, some req)
            | .ok resp =>
              if resp.status ≠ 200 then (device, some req)
              else if ¬ pyInStr "xml" (pyToLower (resp.contentType.getD "")) then
                (device, some req)
              else if resp.chunkSizes.sum > 1048576 then (device, some req)
              else
                match resp.xml with
                | .error e =>
                  ({ device with enrichment_errors :=
                      device.enrichment_errors ++ ["upnp_deep: " ++ e] }, some req)
                | .ok doc =>
                  match doc.deviceNode with
                  | none => (device, some req)
                  | some dn => (upnpApplyDeviceXml parsed location dn device, some req)

/-- A network whose fetch returns a 200 response with Content-Type
`text/html` whose body nevertheless parses as device-description XML: the
concrete input of the C1 counterexample. -/
def htmlNet : Network :=
  { resolve := fun _ => none,
    fetch := fun _ => .ok
      { status := 200, contentType := some "text/html", chunkSizes := [2097152],
        xml := .ok { deviceNode := some { friendlyName := some "X" } } } }

/-- An SSDP record pointing at a private-network LOCATION. -/
def ssdpRec0 : SsdpRecord := [("LOCATION", "http://192.168.1.20/desc.xml")]

/-! ## mDNS TXT, WSD scope and MQTT broker enrichers
(src/protocols/enrichment.py `MDNSTxtEnricher`, `_parse_wsd_scopes`,
`MQTTBrokerEnricher`) -/

/-- `MDNSTxtEnricher.enrich(device)`: TXT keys are lower-cased into a dict
(`txt[key.lower()] = val`, later duplicates win) and mapped onto the device
with Python `or` chains (empty strings are falsy).  The byte-to-string
decoding of TXT pairs happens before this function in the embedding. -/
def mdnsTxtDict (device : DeviceInfo) : List (String × String) :=
  device.raw_data.properties.foldl
    (fun acc kv => assocSetD acc (pyToLower kv.1) kv.2) []

def mdnsTxtEnrich (device : DeviceInfo) : DeviceInfo :=
  let props := device.raw_data.properties
  if props.isEmpty then device
  else
    let txt := mdnsTxtDict device
    let g := fun k => dictGet txt k
    { device with
      manufacturer := pyOrOpt (g "manufacturer")
        (pyOrOpt (g "usb_mfg") (pyOrOpt (g "vendor") device.manufacturer)),
      model := pyOrOpt (g "ty") (pyOrOpt (g "model")
        (pyOrOpt (g "product") (pyOrOpt (g "usb_mdl") device.model))),
      firmware_version := pyOrOpt (g "fv") (pyOrOpt (g "firmware")
        (pyOrOpt (g "sw") (pyOrOpt (g "txtvers") device.firmware_version))),
      serial_number := pyOrOpt (g "serialnumber")
        (pyOrOpt (g "sn") device.serial_number),
      device_url := pyOrOpt (g "adminurl") (pyOrOpt (g "url") device.device_url) }

/-- `s.replace(old, new)` (Python `str.replace`, non-overlapping scan). -/
def pyReplace (s old new : String) : String :=
  String.intercalate new (pySplitOnStr s old)

/-- One iteration of the `for scope in scopes.split()` loop of
`_parse_wsd_scopes`. -/
def wsdScopeStep (dev : DeviceInfo) (scope : String) : DeviceInfo :=
  let lower := pyToLower scope
  if pyInStr "onvif.org/name/" lower then
    { dev with
        friendly_name :=
          some (pyReplace ((pySplitOnStr scope "/name/").getLastD "") "%20" " ") }
  else if pyInStr "onvif.org/hardware/" lower then
    { dev with
        model :=
          some (pyReplace ((pySplitOnStr scope "/hardware/").getLastD "") "%20" " ") }
  else if pyInStr "onvif.org/type/" lower then
    let tag := (pySplitOnStr scope "/type/").getLastD ""
    if tag ≠ "" ∧ tag ∉ dev.device_tags then
      { dev with device_tags := dev.device_tags ++ [tag] }
    else dev
  else dev

/-- `_parse_wsd_scopes(device, scopes)`: one pass over the
whitespace-separated scope URIs. -/
def wsdParseScopes (device : DeviceInfo) (scopes : String) : DeviceInfo :=
  (pySplitWs scopes).foldl wsdScopeStep device

/-- An mDNS device with a non-empty manufacturer and a TXT record that
supplies a different manufacturer: the concrete input of the C8
counterexample. -/
def txtOverwriteDevice : DeviceInfo :=
  { protocol := "mdns", manufacturer := some "Existing",
    raw_data := { properties := [("manufacturer", "New")] } }

/-- Concrete witness inputs for `stage_additivity`. -/
def keepMfgDevice : DeviceInfo :=
  { protocol := "mdns", manufacturer := some "Keep",
    raw_data := { properties := [("ty", "ModelX")] } }

def camNamedDevice : DeviceInfo :=
  { protocol := "upnp", friendly_name := some "Cam" }

def wsdTaggedDevice : DeviceInfo :=
  { protocol := "wsd", device_tags := ["existing"] }

/-! ## MQTT broker probing (src/protocols/mqtt.py)

The paho client, sockets and timing are abstracted into a `BrokerBehavior`
oracle: the CONNACK outcome (`none` = connect timeout), the message events
delivered to `on_message` during the `$SYS` phase and during topic
sampling, whether the sampling subscription runs at all
(`remaining_after_sys > 0.5` is time-dependent), and whether the test
publish reported success. -/

def MAX_SAMPLED_TOPICS : Nat := 50

def MAX_SYS_ENTRIES : Nat := 200

/-- `s.startswith(pfx)`. -/
def pyStartsWith (s pfx : String) : Bool :=
  pfx.toList.isPrefixOf s.toList

/-- ASCII `str.upper` on one character. -/
def pyCharUpper (c : Char) : Char :=
  if 'a' ≤ c ∧ c ≤ 'z' then Char.ofNat (c.toNat - 32) else c

/-- `s.capitalize()`: first character upper-cased, the rest lower-cased. -/
def pyCapitalize (s : String) : String :=
  match s.toList with
  | [] => ""
  | c :: rest => String.mk (pyCharUpper c :: rest.map pyCharLower)

/-- `int(s)` (`none` models the `ValueError` the source catches). -/
def pyParseInt (s : String) : Option Int :=
  match pyStripChars s.toList with
  | [] => none
  | '-' :: rest => (pyToNatOpt (String.mk rest)).map (fun n => -(n : Int))
  | '+' :: rest => (pyToNatOpt (String.mk rest)).map (fun n => (n : Int))
  | cs => (pyToNatOpt (String.mk cs)).map (fun n => (n : Int))

/-- The shared `_ProbeState` mutated by the `on_message` callback. -/
structure ProbeState where
  sysData : List (String × String) := []
  sampledTopics : List String := []
deriving DecidableEq, Repr

/-- The `on_message` callback: `$SYS/` topics go to the capped `sys_data`
dict, other topics to the capped `sampled_topics` set (payloads of non-$SYS
topics are never stored). -/
def onMessage (st : ProbeState) (msg : String × String) : ProbeState :=
  if pyStartsWith msg.1 "$SYS/" then
    if st.sysData.length < MAX_SYS_ENTRIES then
      { st with sysData := assocSetD st.sysData msg.1 msg.2 }
    else st
  else
    if st.sampledTopics.length < MAX_SAMPLED_TOPICS then
      if msg.1 ∈ st.sampledTopics then st
      else { st with sampledTopics := st.sampledTopics ++ [msg.1] }
    else st

/-- The broker record dict built by `_probe_broker`. -/
structure MqttResult where
  address : String := ""
  port : Nat := 0
  broker_name : Option String := none
  broker_version : Option String := none
  anonymous_access : Bool := false
  tls_supported : Bool := false
  anonymous_publish : Bool := false
  connected_clients : Option Int := none
  uptime_seconds : Option Int := none
  messages_received : Option Int := none
  messages_sent : Option Int := none
  sampled_topics : List String := []
  topic_count : Nat := 0
  risk_flags : List String := []
  metadata : List (String × String) := []
deriving DecidableEq, Repr

/-- The environment of one `_probe_broker` call. -/
structure BrokerBehavior where
  connack : Option Nat := none
  sysEvents : List (String × String) := []
  samplingRuns : Bool := true
  topicEvents : List (String × String) := []
  publishOk : Bool := false

/-- `_parse_sys_data`: the broker-version block. -/
def parseSysVersion (sysData : List (String × String)) (r : MqttResult) :
    MqttResult :=
  let version := (dictGet sysData "$SYS/broker/version").getD ""
  if version ≠ "" then
    let parts := pySplitWs (pyToLower version)
    let r1 := { r with broker_version := some version }
    match parts with
    | [] => r1
    | p0 :: _ => { r1 with broker_name := some (pyCapitalize p0) }
  else r

/-- `_parse_sys_data`: the uptime block (`int(uptime_str.split()[0])`;
`ValueError`/`IndexError` are caught and ignored). -/
def parseSysUptime (sysData : List (String × String)) (r : MqttResult) :
    MqttResult :=
  let uptimeStr := (pyOrOpt (dictGet sysData "$SYS/broker/uptime")
    (pyOrOpt (dictGet sysData "$SYS/broker/uptime/seconds") (some ""))).getD ""
  if uptimeStr ≠ "" then
    match (pySplitWs uptimeStr).head? with
    | none => r
    | some tok =>
      match pyParseInt tok with
      | none => r
      | some n => { r with uptime_seconds := some n }
  else r

/-- `_parse_sys_data`: the connected-clients block. -/
def parseSysClients (sysData : List (String × String)) (r : MqttResult) :
    MqttResult :=
  let clientsStr := (pyOrOpt (dictGet sysData "$SYS/broker/clients/connected")
    (pyOrOpt (dictGet sysData "$SYS/broker/clients/active") (some ""))).getD ""
  if clientsStr ≠ "" then
    match pyParseInt clientsStr with
    | none => r
    | some n => { r with connected_clients := some n }
  else r

/-- `_parse_sys_data`: the messages-received block. -/
def parseSysReceived (sysData : List (String × String)) (r : MqttResult) :
    MqttResult :=
  let recvStr := (dictGet sysData "$SYS/broker/messages/received").getD ""
  if recvStr ≠ "" then
    match pyParseInt recvStr with
    | none => r
    | some n => { r with messages_received := some n }
  else r

/-- `_parse_sys_data`: the messages-sent block. -/
def parseSysSent (sysData : List (String × String)) (r : MqttResult) :
    MqttResult :=
  let sentStr := (dictGet sysData "$SYS/broker/messages/sent").getD ""
  if sentStr ≠ "" then
    match pyParseInt sentStr with
    | none => r
    | some n => { r with messages_sent := some n }
  else r

/-- `MQTTDiscovery._parse_sys_data(sys_data, result)`. -/
def parseSysData (sysData : List (String × String)) (r : MqttResult) :
    MqttResult :=
  parseSysSent sysData (parseSysReceived sysData
    (parseSysClients sysData (parseSysUptime sysData
      (parseSysVersion sysData r))))

/-- `MQTTDiscovery._generate_risk_flags(result)`. -/
def generateRiskFlags (r : MqttResult) : MqttResult :=
  { r with risk_flags :=
      (if r.anonymous_access then ["open_broker"] else []) ++
      (if r.anonymous_publish then ["anonymous_publish"] else []) ++
      (if ¬ r.tls_supported then ["no_tls"] else []) }

/-- `sorted(topics)` (ascending lexicographic; insertion sort, as Python's
stable sort, and the input is a set so stability is moot). -/
def pySorted (l : List String) : List String :=
  List.insertionSort (fun a b : String => a ≤ b) l

/-- `MQTTDiscovery._probe_broker(ip, port_cfg, tls_supported, timeout)`,
with the client behaviour supplied by the oracle `b`.  A connect timeout
returns `none`; a non-zero CONNACK returns the freshly initialised record
(note: without running `_generate_risk_flags`); a zero CONNACK harvests
`$SYS`, samples topics (when time remains), tests publish and derives the
risk flags. -/
def probeBroker (ip : String) (port : Nat) (tlsSupported : Bool)
    (b : BrokerBehavior) : Option MqttResult :=
  let result0 : MqttResult :=
    { address := ip, port := port, tls_supported := tlsSupported }
  match b.connack with
  | none => none
  | some rc =>
    if rc ≠ 0 then some result0
    else
      let st1 := b.sysEvents.foldl onMessage {}
      let r1 := parseSysData st1.sysData { result0 with anonymous_access := true }
      let st2 := if b.samplingRuns then b.topicEvents.foldl onMessage st1 else st1
      let r2 := { r1 with
        sampled_topics := pySorted st2.sampledTopics,
        topic_count := st2.sampledTopics.length,
        anonymous_publish := b.publishOk,
        metadata := st2.sysData }
      some (generateRiskFlags r2)

/-- The C9 counterexample's concrete broker behaviour: CONNACK rc=5. -/
def lockedBroker : BrokerBehavior := { connack := some 5 }

/-- The record `_probe_broker` returns for `lockedBroker`. -/
def lockedResult : MqttResult := { address := "192.168.1.7", port := 1883 }

/-- The C9/C10 witnesses' concrete open-broker behaviour. -/
def sampleBroker : BrokerBehavior :=
  { connack := some 0,
    sysEvents := [("$SYS/broker/version", "mosquitto version 2.0.15")],
    samplingRuns := true,
    topicEvents := [("zeta/1", "x"), ("alpha/2", "y"), ("zeta/1", "z")],
    publishOk := true }

/-- The record `_probe_broker` returns for `sampleBroker`. -/
def sampleProbeResult : MqttResult :=
  (probeBroker "10.0.0.5" 1883 true sampleBroker).getD {}

/-- The invariants `on_message` maintains on the probe state. -/
def ProbeInv (st : ProbeState) : Prop :=
  st.sysData.length ≤ MAX_SYS_ENTRIES ∧
  st.sampledTopics.length ≤ MAX_SAMPLED_TOPICS ∧
  st.sampledTopics.Nodup ∧
  ∀ t ∈ st.sampledTopics, pyStartsWith t "$SYS/" = false

/-! ## Theorems -/

/-- Unfolding equation for `parseOptionsLoop` on a non-empty suffix. -/
theorem parseOptionsLoop_cons (b : Nat) (rest : List Nat) (prev : Nat) :
    parseOptionsLoop (b :: rest) prev =
      if b = PAYLOAD_MARKER then .ok ([], rest)
      else
        match readExt (b / 16 % 16) rest with
        | .error _ => .error ()
        | .ok (delta, rest1) =>
          match readExt (b % 16) rest1 with
          | .error _ => .error ()
          | .ok (length, rest2) =>
            match parseOptionsLoop (rest2.drop length) (prev + delta) with
            | .error e => .error e
            | .ok (opts, payload) =>
                .ok ((prev + delta, rest2.take length) :: opts, payload) := by
  rw [parseOptionsLoop]
  split
  · rfl
  · rcases h1 : readExt (b / 16 % 16) rest with _ | ⟨delta, rest1⟩ <;> simp only
    rcases h2 : readExt (b % 16) rest1 with _ | ⟨length, rest2⟩ <;> simp only

theorem parseOptionsLoop_encodeOption (d : Nat) (v tail : List Nat) (prev : Nat)
    (hd12 : d ≤ 12) (hv : v.length ≤ 65804) :
    parseOptionsLoop (encodeOption d v ++ tail) prev =
      match parseOptionsLoop tail (prev + d) with
      | .error e => .error e
      | .ok (opts, pl) => .ok ((prev + d, v) :: opts, pl) := by
  have hnm : ∀ L : Nat, L < 15 → ¬ (d * 16 + L = PAYLOAD_MARKER) := by
    unfold PAYLOAD_MARKER; omega
  by_cases h13 : v.length < 13
  · simp only [encodeOption, if_pos (show d < 13 by omega), if_pos h13,
      List.nil_append, List.cons_append]
    rw [parseOptionsLoop_cons, if_neg (hnm _ (by omega))]
    have e1 : (d * 16 + v.length) / 16 % 16 = d := by omega
    have e2 : (d * 16 + v.length) % 16 = v.length := by omega
    have r1 : readExt d (v ++ tail) = .ok (d, v ++ tail) := by
      unfold readExt; rw [if_neg (by omega), if_neg (by omega)]
    have r2 : readExt v.length (v ++ tail) = .ok (v.length, v ++ tail) := by
      unfold readExt; rw [if_neg (by omega), if_neg (by omega)]
    simp only [e1, e2, r1, r2, List.take_left, List.drop_left]
  · by_cases h269 : v.length < 269
    · simp only [encodeOption, if_pos (show d < 13 by omega), if_neg h13,
        if_pos h269, List.nil_append, List.cons_append, List.singleton_append]
      rw [parseOptionsLoop_cons, if_neg (hnm 13 (by omega))]
      have e1 : (d * 16 + 13) / 16 % 16 = d := by omega
      have e2 : (d * 16 + 13) % 16 = 13 := by omega
      have r1 : readExt d ((v.length - 13) :: (v ++ tail)) =
          .ok (d, (v.length - 13) :: (v ++ tail)) := by
        unfold readExt; rw [if_neg (by omega), if_neg (by omega)]
      have r2 : readExt 13 ((v.length - 13) :: (v ++ tail)) =
          .ok (v.length, v ++ tail) := by
        unfold readExt; rw [if_pos rfl]
        simp only [Except.ok.injEq, Prod.mk.injEq, and_true]
        omega
      simp only [e1, e2, r1, r2, List.take_left, List.drop_left]
    · simp only [encodeOption, if_pos (show d < 13 by omega), if_neg h13,
        if_neg h269, packH, List.nil_append, List.cons_append, List.singleton_append]
      rw [parseOptionsLoop_cons, if_neg (hnm 14 (by omega))]
      have e1 : (d * 16 + 14) / 16 % 16 = d := by omega
      have e2 : (d * 16 + 14) % 16 = 14 := by omega
      have r1 : readExt d ((v.length - 269) / 256 % 256 :: (v.length - 269) % 256 :: (v ++ tail)) =
          .ok (d, (v.length - 269) / 256 % 256 :: (v.length - 269) % 256 :: (v ++ tail)) := by
        unfold readExt; rw [if_neg (by omega), if_neg (by omega)]
      have r2 : readExt 14 ((v.length - 269) / 256 % 256 :: (v.length - 269) % 256 :: (v ++ tail)) =
          .ok (v.length, v ++ tail) := by
        unfold readExt; rw [if_neg (by omega), if_pos rfl]
        simp only [Except.ok.injEq, Prod.mk.injEq, and_true]
        omega
      simp only [e1, e2, r1, r2, List.take_left, List.drop_left]

theorem parseOptionsLoop_buildOptionsAux (segs : List (List Nat)) (prev : Nat)
    (hprev : prev ≤ 11) (hlen : ∀ s ∈ segs, s.length ≤ 65804) :
    parseOptionsLoop (buildOptionsAux prev segs) prev =
      .ok (segs.map (fun s => (OPTION_URI_PATH, s)), []) := by
  induction segs generalizing prev with
  | nil => simp [buildOptionsAux, parseOptionsLoop]
  | cons s rest ih =>
    rw [buildOptionsAux,
      parseOptionsLoop_encodeOption _ _ _ _ (by unfold OPTION_URI_PATH; omega)
        (hlen s (by simp))]
    have hp : prev + (OPTION_URI_PATH - prev) = OPTION_URI_PATH := by
      unfold OPTION_URI_PATH; omega
    rw [hp, ih OPTION_URI_PATH (by unfold OPTION_URI_PATH; omega)
      (fun t ht => hlen t (List.mem_cons_of_mem _ ht))]
    simp

theorem splitOnSlash_no47 (l : List Nat) (h : 47 ∉ l) : splitOnSlash l = [l] := by
  induction l with
  | nil => rfl
  | cons b t ih =>
    have hb : ¬ (b = 47) := fun hb => h (hb ▸ List.mem_cons_self b t)
    have ht : 47 ∉ t := fun hm => h (List.mem_cons_of_mem _ hm)
    rw [splitOnSlash, if_neg hb, ih ht]

theorem splitOnSlash_append (s t : List Nat) (h : 47 ∉ s) :
    splitOnSlash (s ++ 47 :: t) = s :: splitOnSlash t := by
  induction s with
  | nil => simp [splitOnSlash]
  | cons b s' ih =>
    have hb : ¬ (b = 47) := fun hb => h (hb ▸ List.mem_cons_self b s')
    have hs : 47 ∉ s' := fun hm => h (List.mem_cons_of_mem _ hm)
    rw [List.cons_append, splitOnSlash, if_neg hb, ih hs]

theorem splitOnSlash_joinSegs (segs : List (List Nat)) (hne : segs ≠ [])
    (h47 : ∀ s ∈ segs, 47 ∉ s) : splitOnSlash (joinSegs segs) = segs := by
  induction segs with
  | nil => exact absurd rfl hne
  | cons s rest ih =>
    cases rest with
    | nil => exact splitOnSlash_no47 s (h47 s (by simp))
    | cons s2 rest' =>
      rw [show joinSegs (s :: s2 :: rest') = s ++ 47 :: joinSegs (s2 :: rest') from rfl,
        splitOnSlash_append s _ (h47 s (by simp)),
        ih (by simp) (fun t ht => h47 t (List.mem_cons_of_mem _ ht))]

theorem dropWhile47_eq_self (l : List Nat) (h : ∀ b, l.head? = some b → ¬ (b = 47)) :
    l.dropWhile (· = 47) = l := by
  cases l with
  | nil => rfl
  | cons b t =>
    have := h b rfl
    simp [List.dropWhile_cons, this]

theorem stripSlashes_eq_self (l : List Nat) (h1 : ∀ b, l.head? = some b → ¬ (b = 47))
    (h2 : ∀ b, l.getLast? = some b → ¬ (b = 47)) : stripSlashes l = l := by
  unfold stripSlashes
  rw [dropWhile47_eq_self l h1,
    dropWhile47_eq_self l.reverse (fun b hb => h2 b (by rwa [List.head?_reverse] at hb)),
    List.reverse_reverse]

theorem joinSegs_head? (s : List Nat) (rest : List (List Nat)) (hs : s ≠ []) :
    (joinSegs (s :: rest)).head? = s.head? := by
  cases s with
  | nil => exact absurd rfl hs
  | cons a t => cases rest <;> rfl

theorem joinSegs_getLast? (segs : List (List Nat)) (hne : segs ≠ [])
    (h : ∀ s ∈ segs, s ≠ []) :
    ∃ s ∈ segs, (joinSegs segs).getLast? = s.getLast? := by
  induction segs with
  | nil => exact absurd rfl hne
  | cons s rest ih =>
    cases rest with
    | nil => exact ⟨s, by simp, rfl⟩
    | cons s2 rest' =>
      obtain ⟨t, ht, hlast⟩ := ih (by simp) (fun u hu => h u (List.mem_cons_of_mem _ hu))
      refine ⟨t, List.mem_cons_of_mem _ ht, ?_⟩
      rw [show joinSegs (s :: s2 :: rest') = s ++ 47 :: joinSegs (s2 :: rest') from rfl,
        List.getLast?_append_cons, ← hlast]
      cases hj : joinSegs (s2 :: rest') with
      | nil =>
        exfalso
        have hh := joinSegs_head? s2 rest' (h s2 (by simp))
        rw [hj] at hh
        cases s2 with
        | nil => exact h [] (by simp) rfl
        | cons a t => simp at hh
      | cons a t => rw [List.getLast?_cons_cons]

theorem coap_roundtrip_eq (segs : List (List Nat)) (msgType c1 c2 mid : Nat)
    (token : List Nat)
    (hsegs : segs ≠ [])
    (hseg : ∀ s ∈ segs, 1 ≤ s.length ∧ s.length ≤ 300 ∧ 47 ∉ s)
    (htype : msgType < 4) (hc1 : c1 < 8) (hc2 : c2 < 32) (hmid : mid < 65536)
    (htok : token.length < 16) :
    parseCoapResponse (buildCoapRequest msgType (c1, c2) mid token (joinSegs segs)) =
      .ok (some { version := 1, type := msgType, code := (c1, c2), messageId := mid,
                  token := token,
                  options := segs.map (fun s => (OPTION_URI_PATH, s)),
                  payload := [] }) := by
  have hstrip : stripSlashes (joinSegs segs) = joinSegs segs := by
    apply stripSlashes_eq_self
    · intro b hb
      match segs, hsegs with
      | s :: rest, _ =>
        rw [joinSegs_head? s rest (by
          have := (hseg s (by simp)).1
          intro hnil
          simp [hnil] at this)] at hb
        intro h47
        exact (hseg s (by simp)).2.2 (h47 ▸ List.mem_of_mem_head? hb)
    · intro b hb
      obtain ⟨s, hs, hlast⟩ := joinSegs_getLast? segs hsegs (fun s hs => by
        have := (hseg s hs).1
        intro hnil
        simp [hnil] at this)
      rw [hlast] at hb
      intro h47
      exact (hseg s hs).2.2 (h47 ▸ List.mem_of_mem_getLast? hb)
  have hsplit : pathSegments (joinSegs segs) = segs := by
    unfold pathSegments
    rw [hstrip, splitOnSlash_joinSegs segs hsegs (fun s hs => (hseg s hs).2.2)]
    apply List.filter_eq_self.mpr
    intro s hs
    have h1 := (hseg s hs).1
    cases s with
    | nil => simp at h1
    | cons a t => simp [List.isEmpty]
  unfold buildCoapRequest
  rw [hsplit]
  have e0 : 64 * COAP_VERSION + msgType % 4 * 16 + token.length % 16 =
      64 + msgType * 16 + token.length := by
    unfold COAP_VERSION; omega
  have ever : (64 + msgType * 16 + token.length) / 64 % 4 = 1 := by omega
  have etyp : (64 + msgType * 16 + token.length) / 16 % 4 = msgType := by omega
  have etkl : (64 + msgType * 16 + token.length) % 16 = token.length := by omega
  have ecb1 : (c1 * 32 + c2) / 32 % 8 = c1 := by omega
  have ecb2 : (c1 * 32 + c2) % 32 = c2 := by omega
  have emid : mid / 256 % 256 * 256 + mid % 256 = mid := by omega
  simp only [packH, List.cons_append, List.nil_append, e0]
  simp only [parseCoapResponse, ever, etyp, etkl, ecb1, ecb2, emid, COAP_VERSION,
    ne_eq, not_true_eq_false, if_false, List.take_left, List.drop_left]
  rw [parseOptionsLoop_buildOptionsAux segs 0 (by omega)
    (fun s hs => by have := (hseg s hs).2.1; omega)]

theorem filter_uriPath_map (l : List (List Nat)) :
    ((l.map (fun s => (OPTION_URI_PATH, s))).filter
      (fun o => o.1 = OPTION_URI_PATH)).map Prod.snd = l := by
  induction l with
  | nil => rfl
  | cons s rest ih => simp [List.filter_cons, ih]

/-- C5: For every non-empty sequence of Uri-Path segments, each 1..300 bytes
long and containing no `'/'` byte, encoding them with `_build_coap_request`
(which exercises the extended option delta/length forms at 13/14) and
decoding with `_parse_coap_response` yields exactly the same list of
segments as the Uri-Path (option 11) option values, in the same order.
(`msgType`, the code pair, the message id and the token range over all
values representable in the wire header, as in the source's call sites.) -/
theorem coap_uri_path_roundtrip (segs : List (List Nat)) (msgType c1 c2 mid : Nat)
    (token : List Nat)
    (hsegs : segs ≠ [])
    (hseg : ∀ s ∈ segs, (1 ≤ s.length ∧ s.length ≤ 300 ∧ 47 ∉ s) ∧ ∀ b ∈ s, b < 256)
    (htype : msgType < 4) (hc1 : c1 < 8) (hc2 : c2 < 32) (hmid : mid < 65536)
    (htok : token.length < 16) :
    ∃ m : CoapMessage,
      parseCoapResponse (buildCoapRequest msgType (c1, c2) mid token (joinSegs segs)) =
        .ok (some m) ∧ uriPathOptionValues m = segs := by
  refine ⟨_, coap_roundtrip_eq segs msgType c1 c2 mid token hsegs
    (fun s hs => (hseg s hs).1) htype hc1 hc2 hmid htok, ?_⟩
  exact filter_uriPath_map segs

/-- Closed witness for `coap_uri_path_roundtrip` at concrete segments
`["a", "bc"]`, a NON GET with message id 0x1234 and a 2-byte token. -/
theorem coap_uri_path_roundtrip_witness :
    ∃ m : CoapMessage,
      parseCoapResponse (buildCoapRequest 1 (0, 1) 4660 [170, 187]
        (joinSegs [[97], [98, 99]])) = .ok (some m) ∧
      uriPathOptionValues m = [[97], [98, 99]] :=
  coap_uri_path_roundtrip [[97], [98, 99]] 1 0 1 4660 [170, 187]
    (by decide) (by decide) (by decide) (by decide) (by decide) (by decide)
    (by decide)

/-- C6 (code bug): `_parse_coap_response` is documented to return `None` on
malformed input, but on the malformed datagram
`40 45 00 00 D0` (valid 4-byte header followed by an option byte announcing
an extended delta with no extension byte present) the expression
`data[offset]` raises an uncaught `IndexError`, which escapes the discovery
loop's `except socket.timeout / OSError` handlers.  The embedded parser
returns the exception outcome on exactly this input. -/
theorem coap_parse_raises_on_truncated_ext_delta :
    parseCoapResponse [64, 69, 0, 0, 208] = .error () := by
  simp [parseCoapResponse, parseOptionsLoop, readExt, COAP_VERSION, PAYLOAD_MARKER]

/-- C7: Parsing `</temp>;rt="temperature";obs;ct=50,</humidity>;rt="humidity"`
with `_parse_link_format` yields exactly two entries: the first with uri
`/temp`, rt `temperature`, ct `50` and the bare attribute `obs` stored as
boolean true; the second with uri `/humidity`, rt `humidity` and no `obs`
key. -/
theorem link_format_parse_example :
    parseLinkFormat "</temp>;rt=\"temperature\";obs;ct=50,</humidity>;rt=\"humidity\"" =
      [[("uri", .str "/temp"), ("rt", .str "temperature"), ("obs", .flag),
        ("ct", .str "50")],
       [("uri", .str "/humidity"), ("rt", .str "humidity")]] ∧
    ∀ kv ∈ [("uri", LinkVal.str "/humidity"), ("rt", LinkVal.str "humidity")],
      kv.1 ≠ "obs" := by
  constructor
  · decide
  · decide

theorem foldl_set_getElem? (g : Nat → DeviceInfo) (order : List Nat)
    (init : List (Option DeviceInfo)) (i : Nat) (hi : i < init.length) :
    (order.foldl (fun acc idx => acc.set idx (some (g idx))) init)[i]? =
      if i ∈ order then some (some (g i)) else init[i]? := by
  induction order generalizing init with
  | nil => simp
  | cons o os ih =>
    rw [List.foldl_cons, ih (init.set o (some (g o))) (by simpa using hi)]
    by_cases hmem : i ∈ os
    · simp [hmem, List.mem_cons]
    · rw [if_neg hmem, List.getElem?_set]
      by_cases ho : o = i
      · subst ho
        simp [hi, List.mem_cons]
      · have hne : ¬ i ∈ o :: os := by
          simp only [List.mem_cons]
          rintro (h | h)
          · exact ho h.symm
          · exact hmem h
        simp [hne, ho]

theorem poolRun_getElem? (stages : List Stage) (devices : List DeviceInfo)
    (order : List Nat) (resOk : Nat → Bool) (i : Nat) (hi : i < devices.length)
    (hc : ∀ j < devices.length, j ∈ order) :
    (poolRun stages devices order resOk)[i]? =
      some (some (if resOk i then enrichDevice stages (devices.getD i {})
                  else devices.getD i {})) := by
  unfold poolRun
  rw [foldl_set_getElem? _ order _ i (by simpa using hi), if_pos (hc i hi)]

theorem foldl_set_length (g : Nat → DeviceInfo) (order : List Nat)
    (init : List (Option DeviceInfo)) :
    (order.foldl (fun acc idx => acc.set idx (some (g idx))) init).length =
      init.length := by
  induction order generalizing init with
  | nil => rfl
  | cons o os ih => rw [List.foldl_cons, ih, List.length_set]

theorem poolRun_length (stages : List Stage) (devices : List DeviceInfo)
    (order : List Nat) (resOk : Nat → Bool) :
    (poolRun stages devices order resOk).length = devices.length := by
  unfold poolRun
  rw [foldl_set_length]
  simp

theorem filterMap_id_map_some {α : Type} (l : List α) :
    (l.map some).filterMap id = l := by
  induction l with
  | nil => rfl
  | cons a t ih => simp [ih]

theorem poolRun_eq (stages : List Stage) (devices : List DeviceInfo)
    (order : List Nat) (resOk : Nat → Bool)
    (hc : ∀ j < devices.length, j ∈ order) :
    poolRun stages devices order resOk =
      (devices.mapIdx (fun i d => if resOk i then enrichDevice stages d else d)).map
        some := by
  apply List.ext_getElem?
  intro i
  by_cases hi : i < devices.length
  · rw [poolRun_getElem? stages devices order resOk i hi hc]
    rw [List.getElem?_map, List.getElem?_mapIdx]
    rw [List.getElem?_eq_getElem hi]
    have hD : devices.getD i {} = devices[i] := by
      rw [List.getD_eq_getElem?_getD, List.getElem?_eq_getElem hi]
      rfl
    rw [hD]
    rfl
  · have h1 : (poolRun stages devices order resOk)[i]? = none := by
      rw [List.getElem?_eq_none_iff, poolRun_length]
      omega
    have h2 : (((devices.mapIdx fun i d =>
        if resOk i then enrichDevice stages d else d)).map some)[i]? = none := by
      rw [List.getElem?_eq_none_iff]
      simp only [List.length_map, List.length_mapIdx]
      omega
    rw [h1, h2]

theorem enrichAll_eq_map (stages : List Stage) (devices : List DeviceInfo)
    (order : List Nat) (resOk : Nat → Bool)
    (hc : ∀ j < devices.length, j ∈ order) :
    enrichAll stages devices order resOk =
      devices.mapIdx (fun i d => if resOk i then enrichDevice stages d else d) := by
  unfold enrichAll
  by_cases hemp : devices.isEmpty
  · rw [if_pos hemp]
    rw [List.isEmpty_iff] at hemp
    simp [hemp]
  · rw [if_neg hemp, poolRun_eq stages devices order resOk hc]
    exact filterMap_id_map_some _

theorem applyEnrichment_foldl (enriched : List DeviceInfo) (res : Results)
    (cnt : String → Nat) :
    enriched.foldl applyEnrichmentStep (res, cnt) =
      (fun p => attachFrom (res p) (cnt p) (protoFingerprints p enriched),
       fun p => cnt p + (enriched.filter (fun d => d.protocol = p)).length) := by
  induction enriched generalizing res cnt with
  | nil =>
    apply Prod.ext
    · funext p
      simp [protoFingerprints, attachFrom]
    · funext p
      simp
  | cons dev rest ih =>
    rw [List.foldl_cons, ih]
    apply Prod.ext
    · funext p
      simp only [applyEnrichmentStep]
      by_cases hp : dev.protocol = p
      · subst hp
        rw [show protoFingerprints dev.protocol (dev :: rest) =
            fingerprintDict dev :: protoFingerprints dev.protocol rest by
          simp [protoFingerprints, List.filter_cons]]
        rw [show attachFrom (res dev.protocol) (cnt dev.protocol)
              (fingerprintDict dev :: protoFingerprints dev.protocol rest) =
            attachFrom
              (if cnt dev.protocol < (res dev.protocol).length then
                (res dev.protocol).modify
                  (fun r0 => { r0 with fingerprint := some (fingerprintDict dev) })
                  (cnt dev.protocol)
              else res dev.protocol)
              (cnt dev.protocol + 1) (protoFingerprints dev.protocol rest) from rfl]
        by_cases hlt : cnt dev.protocol < (res dev.protocol).length
        · rw [if_pos hlt, if_pos hlt]
          simp [Function.update_same]
        · rw [if_neg hlt, if_neg hlt]
          simp [Function.update_same]
      · have h1 : (rest.filter (fun d => d.protocol = p)) =
            ((dev :: rest).filter (fun d => d.protocol = p)) := by
          simp [List.filter_cons, hp]
        rw [show protoFingerprints p (dev :: rest) = protoFingerprints p rest by
          simp [protoFingerprints, ← h1]]
        by_cases hlt : cnt dev.protocol < (res dev.protocol).length
        · rw [if_pos hlt]
          simp [Function.update_noteq (fun h => hp h.symm)]
        · rw [if_neg hlt]
          simp [Function.update_noteq (fun h => hp h.symm)]
    · funext p
      simp only [applyEnrichmentStep]
      by_cases hp : dev.protocol = p
      · subst hp
        rw [show ((dev :: rest).filter (fun d => d.protocol = dev.protocol)).length =
            (rest.filter (fun d => d.protocol = dev.protocol)).length + 1 by
          simp [List.filter_cons]]
        simp only [Function.update_same]
        omega
      · rw [show ((dev :: rest).filter (fun d => d.protocol = p)).length =
            (rest.filter (fun d => d.protocol = p)).length by
          simp [List.filter_cons, hp]]
        simp [Function.update_noteq (fun h => hp h.symm)]

theorem attachFrom_getElem?_lt (fps : List Fingerprint) (l : List RawRecord)
    (start j : Nat) (hj : j < start) :
    (attachFrom l start fps)[j]? = l[j]? := by
  induction fps generalizing l start with
  | nil => rfl
  | cons f rest ih =>
    rw [attachFrom, ih _ (start + 1) (by omega)]
    split
    · rw [List.getElem?_modify]
      cases hcell : l[j]? with
      | none => rfl
      | some r0 => simp [show ¬ start = j by omega]
    · rfl

theorem attachFrom_length (fps : List Fingerprint) (l : List RawRecord)
    (start : Nat) : (attachFrom l start fps).length = l.length := by
  induction fps generalizing l start with
  | nil => rfl
  | cons f rest ih =>
    rw [attachFrom, ih]
    split
    · exact List.length_modify ..
    · rfl

theorem attachFrom_getElem? (fps : List Fingerprint) (l : List RawRecord)
    (start k : Nat) (hk : k < fps.length) (hl : start + k < l.length) :
    (attachFrom l start fps)[start + k]? =
      (l[start + k]?).map
        (fun r0 => { r0 with fingerprint := some (fps.getD k default) }) := by
  induction fps generalizing l start k with
  | nil => exact absurd hk (by simp)
  | cons f rest ih =>
    cases k with
    | zero =>
      rw [attachFrom, attachFrom_getElem?_lt rest _ (start + 1) _ (by omega),
        if_pos (by omega : start < l.length), List.getElem?_modify]
      cases hcell : l[start + 0]? with
      | none =>
        rw [show start + 0 = start by omega] at hcell
        simp [hcell]
      | some r0 =>
        rw [show start + 0 = start by omega] at hcell ⊢
        simp [hcell]
    | succ k1 =>
      have hidx : start + (k1 + 1) = (start + 1) + k1 := by omega
      have hlen : (if start < l.length then
          l.modify (fun r0 => { r0 with fingerprint := some f }) start
        else l).length = l.length := by
        split
        · exact List.length_modify ..
        · rfl
      have hne : ¬ start = (start + 1) + k1 := by omega
      have hcell : (if start < l.length then
          l.modify (fun r0 => { r0 with fingerprint := some f }) start
        else l)[(start + 1) + k1]? = l[(start + 1) + k1]? := by
        split
        · rw [List.getElem?_modify]
          cases l[(start + 1) + k1]? <;> simp [hne]
        · rfl
      rw [attachFrom, hidx, ih _ (start + 1) k1 (by simpa using hk)
        (by rw [hlen]; omega), hcell]
      simp [List.getD_cons_succ]

theorem mapIdx_const_fun {α β : Type} (f : α → β) (l : List α) :
    l.mapIdx (fun _ a => f a) = l.map f := by
  apply List.ext_getElem?
  intro i
  rw [List.getElem?_mapIdx, List.getElem?_map]

/-- C2: enrichment preserves the input order of devices: `enrich_all` places
each worker's result back at the device's original index whatever the
completion order, so with every future completing normally the output is the
input list mapped through `enrich_device`; and `apply_enrichment` attaches
the fingerprint of the i-th enriched device of protocol `p` to the i-th raw
record of that protocol's result list (when both exist). -/
theorem enrichment_preserves_order (stages : List Stage) (devices : List DeviceInfo)
    (order : List Nat) (resOk : Nat → Bool) (results : Results)
    (enriched : List DeviceInfo) (p : String) (k : Nat)
    (hcov : ∀ j < devices.length, j ∈ order)
    (hk1 : k < (enriched.filter (fun d => d.protocol = p)).length)
    (hk2 : k < (results p).length) :
    enrichAll stages devices order resOk =
      devices.mapIdx (fun i d => if resOk i then enrichDevice stages d else d) ∧
    enrichAll stages devices order (fun _ => true) =
      devices.map (enrichDevice stages) ∧
    (applyEnrichment results enriched p)[k]? =
      (results p)[k]?.map (fun r0 =>
        { r0 with fingerprint := some (fingerprintDict
            ((enriched.filter (fun d => d.protocol = p)).getD k {})) }) := by
  refine ⟨enrichAll_eq_map stages devices order resOk hcov, ?_, ?_⟩
  · rw [enrichAll_eq_map stages devices order _ hcov]
    simp only [if_pos rfl]
    exact mapIdx_const_fun _ _
  · have happ : applyEnrichment results enriched p =
        attachFrom (results p) 0 (protoFingerprints p enriched) := by
      unfold applyEnrichment
      rw [applyEnrichment_foldl]
    have hk1p : k < (protoFingerprints p enriched).length := by
      simpa [protoFingerprints] using hk1
    have := attachFrom_getElem? (protoFingerprints p enriched) (results p) 0 k
      hk1p (by omega)
    rw [show (0 : Nat) + k = k by omega] at this
    rw [happ, this]
    have hgd : (protoFingerprints p enriched).getD k default =
        fingerprintDict ((enriched.filter (fun d => d.protocol = p)).getD k {}) := by
      unfold protoFingerprints
      rw [List.getD_eq_getElem?_getD, List.getElem?_map,
        List.getElem?_eq_getElem hk1, List.getD_eq_getElem?_getD,
        List.getElem?_eq_getElem hk1]
      rfl
    rw [hgd]

/-- Closed witness for `enrichment_preserves_order`: two devices, an empty
stage chain, workers completing in reverse order, and a two-record upnp
result list receiving the fingerprint of the first upnp device. -/
theorem enrichment_preserves_order_witness :
    enrichAll [] [{ protocol := "upnp" }, { protocol := "mdns" }] [1, 0]
        (fun _ => true) =
      ([{ protocol := "upnp" }, { protocol := "mdns" }] :
        List DeviceInfo).mapIdx (fun i d => if (fun _ => true) i then
          enrichDevice [] d else d) ∧
    enrichAll [] [{ protocol := "upnp" }, { protocol := "mdns" }] [1, 0]
        (fun _ => true) =
      ([{ protocol := "upnp" }, { protocol := "mdns" }] :
        List DeviceInfo).map (enrichDevice []) ∧
    (applyEnrichment
        (fun q => if q = "upnp" then
          [{ data := { name := some "r0" } }, { data := { name := some "r1" } }]
          else [])
        [{ protocol := "upnp", manufacturer := some "Acme" }] "upnp")[0]? =
      ((fun q : String => if q = "upnp" then
          [{ data := { name := some "r0" } }, { data := { name := some "r1" } }]
          else ([] : List RawRecord)) "upnp")[0]?.map (fun r0 =>
        { r0 with fingerprint := some (fingerprintDict
            ((([{ protocol := "upnp", manufacturer := some "Acme" }] :
              List DeviceInfo).filter
                (fun d => d.protocol = "upnp")).getD 0 {})) }) :=
  enrichment_preserves_order [] [{ protocol := "upnp" }, { protocol := "mdns" }]
    [1, 0] (fun _ => true)
    (fun q => if q = "upnp" then
      [{ data := { name := some "r0" } }, { data := { name := some "r1" } }] else [])
    [{ protocol := "upnp", manufacturer := some "Acme" }] "upnp" 0
    (by decide) (by decide) (by simp)

theorem stepStage_preserves_errors (s : Stage) (hs : stagePreservesErrors s)
    (d : DeviceInfo) :
    ∀ e ∈ d.enrichment_errors, e ∈ (stepStage d s).enrichment_errors := by
  intro e he
  unfold stepStage
  cases hcan : s.canEnrich d with
  | error msg => simpa using Or.inl he
  | ok b =>
    cases b with
    | false => exact he
    | true =>
      cases henr : s.enrich d with
      | ok d1 => exact (hs d).1 d1 henr e he
      | error p =>
        match p, henr with
        | (msg, d1), henr => simpa using Or.inl ((hs d).2 msg d1 henr e he)

theorem enrichDevice_preserves_errors (stages : List Stage)
    (hs : ∀ s ∈ stages, stagePreservesErrors s) (d : DeviceInfo) :
    ∀ e ∈ d.enrichment_errors, e ∈ (enrichDevice stages d).enrichment_errors := by
  induction stages generalizing d with
  | nil => intro e he; exact he
  | cons s rest ih =>
    intro e he
    rw [enrichDevice, List.foldl_cons]
    exact ih (fun t ht => hs t (List.mem_cons_of_mem _ ht)) (stepStage d s) e
      (stepStage_preserves_errors s (hs s (by simp)) d e he)

/-- C3: if a stage raises during `can_enrich` or `enrich`, the stage's name
is recorded in the device's `enrichment_errors`, every following stage of
the chain still runs on that device (the full chain equals running the
remaining stages from the post-failure state), and the failure cannot affect
any other device (each output slot of `enrich_all` is a function of its own
input device only). -/
theorem stage_failure_isolated (pre post : List Stage) (s : Stage) (d : DeviceInfo)
    (devices : List DeviceInfo) (order : List Nat) (j : Nat)
    (hpost : ∀ st ∈ post, stagePreservesErrors st)
    (hfail : (∃ e, s.canEnrich (enrichDevice pre d) = .error e) ∨
             (s.canEnrich (enrichDevice pre d) = .ok true ∧
              ∃ e d1, s.enrich (enrichDevice pre d) = .error (e, d1)))
    (hcov : ∀ i < devices.length, i ∈ order) (hj : j < devices.length) :
    (∃ e, (s.name ++ ": " ++ e) ∈
      (enrichDevice (pre ++ s :: post) d).enrichment_errors) ∧
    enrichDevice (pre ++ s :: post) d =
      enrichDevice post (stepStage (enrichDevice pre d) s) ∧
    (enrichAll (pre ++ s :: post) devices order (fun _ => true))[j]? =
      some (enrichDevice (pre ++ s :: post) (devices.getD j {})) := by
  have hsplit : enrichDevice (pre ++ s :: post) d =
      enrichDevice post (stepStage (enrichDevice pre d) s) := by
    unfold enrichDevice
    rw [List.foldl_append, List.foldl_cons]
  refine ⟨?_, hsplit, ?_⟩
  · set d1 := enrichDevice pre d with hd1
    rcases hfail with ⟨e, hcan⟩ | ⟨hcan, e, d2, henr⟩
    · refine ⟨e, ?_⟩
      rw [hsplit]
      apply enrichDevice_preserves_errors post hpost
      unfold stepStage
      rw [hcan]
      simp
    · refine ⟨e, ?_⟩
      rw [hsplit]
      apply enrichDevice_preserves_errors post hpost
      unfold stepStage
      rw [hcan, henr]
      simp
  · rw [enrichAll_eq_map _ devices order _ hcov]
    rw [List.getElem?_mapIdx, List.getElem?_eq_getElem hj]
    have hD : devices.getD j {} = devices[j] := by
      rw [List.getD_eq_getElem?_getD, List.getElem?_eq_getElem hj]
      rfl
    rw [hD]
    rfl

/-- Closed witness for `stage_failure_isolated`: a chain of a crashing stage
followed by a tag-appending stage, run on a one-device pool. -/
theorem stage_failure_isolated_witness :
    (∃ e, ("boom_stage" ++ ": " ++ e) ∈
      (enrichDevice ([] ++ boomStage :: [taggerStage])
        { protocol := "upnp" }).enrichment_errors) ∧
    enrichDevice ([] ++ boomStage :: [taggerStage]) { protocol := "upnp" } =
      enrichDevice [taggerStage]
        (stepStage (enrichDevice [] { protocol := "upnp" }) boomStage) ∧
    (enrichAll ([] ++ boomStage :: [taggerStage])
      [{ protocol := "upnp" }] [0] (fun _ => true))[0]? =
      some (enrichDevice ([] ++ boomStage :: [taggerStage])
        (([{ protocol := "upnp" }] : List DeviceInfo).getD 0 {})) :=
  stage_failure_isolated [] [taggerStage] boomStage
    { protocol := "upnp" } [{ protocol := "upnp" }] [0] 0
    (by
      intro st hst
      rw [List.mem_singleton] at hst
      subst hst
      intro d
      constructor
      · intro d1 h1 e he
        cases h1
        exact he
      · intro msg d1 h1
        cases h1)
    (Or.inl ⟨"fail", rfl⟩)
    (by decide) (by decide)

/-- C4 (amended): when `DeviceClassifier` runs, the first matching rule of
the priority-sorted list assigns its category and merges its tags (the
merged tag list is the element set of old tags plus rule tags); when no rule
matches, `device_category` becomes `device_category or "unknown"` — i.e.
`"unknown"` only when it was unset or empty, an already-assigned non-empty
category is kept; and at pipeline exit (classifier registered last)
`device_category` is always set. -/
theorem classifier_rules_behavior (rules : List TaxonomyRule)
    (device : DeviceInfo) (stages : List Stage) :
    (∀ r, (sortRulesByPriority rules).find?
        (ruleMatches (buildSearchBlob device)) = some r →
      (classifierEnrich (sortRulesByPriority rules) device).device_category =
        some r.category ∧
      (classifierEnrich (sortRulesByPriority rules) device).device_tags =
        mergeTags device.device_tags r.tags ∧
      ∀ t, t ∈ mergeTags device.device_tags r.tags ↔
        (t ∈ device.device_tags ∨ t ∈ r.tags)) ∧
    ((∀ r ∈ sortRulesByPriority rules,
        ruleMatches (buildSearchBlob device) r = false) →
      (classifierEnrich (sortRulesByPriority rules) device).device_category =
        some (pyOrUnknown device.device_category) ∧
      ((device.device_category = none ∨ device.device_category = some "") →
        (classifierEnrich (sortRulesByPriority rules) device).device_category =
          some "unknown") ∧
      (∀ c, c ≠ "" → device.device_category = some c →
        (classifierEnrich (sortRulesByPriority rules) device).device_category =
          some c)) ∧
    (enrichDevice (stages ++ [deviceClassifierStage rules])
      device).device_category ≠ none := by
  refine ⟨?_, ?_, ?_⟩
  · intro r hr
    unfold classifierEnrich
    simp only [hr]
    refine ⟨trivial, trivial, ?_⟩
    intro t
    unfold mergeTags
    rw [List.mem_dedup, List.mem_append]
  · intro hnone
    have hfind : (sortRulesByPriority rules).find?
        (ruleMatches (buildSearchBlob device)) = none := by
      rw [List.find?_eq_none]
      intro r hr
      rw [hnone r hr]
      simp
    unfold classifierEnrich
    simp only [hfind]
    refine ⟨trivial, ?_, ?_⟩
    · rintro (hc | hc) <;> simp [pyOrUnknown, hc]
    · intro c hc hdc
      simp [pyOrUnknown, hdc, hc]
  · unfold enrichDevice
    rw [List.foldl_append, List.foldl_cons, List.foldl_nil]
    have hstep : ∀ d' : DeviceInfo,
        stepStage d' (deviceClassifierStage rules) =
          classifierEnrich (sortRulesByPriority rules) d' := fun d' => rfl
    rw [hstep]
    unfold classifierEnrich
    cases hfind : (sortRulesByPriority rules).find?
        (ruleMatches (buildSearchBlob
          (List.foldl stepStage device stages))) with
    | some r => simp [hfind]
    | none => simp [hfind]

/-- Closed witness for `classifier_rules_behavior`: the sentinel rule fires
on `sentinelMatchingDevice` and assigns its category; the classifier stage
at the end of an empty chain always leaves a category set. -/
theorem classifier_rules_behavior_witness :
    (classifierEnrich (sortRulesByPriority [sentinelRule])
      sentinelMatchingDevice).device_category = some "camera" ∧
    (classifierEnrich (sortRulesByPriority [sentinelRule])
      sentinelMatchingDevice).device_tags =
      mergeTags sentinelMatchingDevice.device_tags ["surveillance"] ∧
    (classifierEnrich (sortRulesByPriority [sentinelRule])
      presetCategoryDevice).device_category =
      some (pyOrUnknown presetCategoryDevice.device_category) ∧
    (enrichDevice ([] ++ [deviceClassifierStage [sentinelRule]])
      presetCategoryDevice).device_category ≠ none := by
  have h1 := (classifier_rules_behavior [sentinelRule] sentinelMatchingDevice []).1
    sentinelRule (by rfl)
  have h2 := (classifier_rules_behavior [sentinelRule] presetCategoryDevice []).2.1
    (by decide)
  exact ⟨h1.1, h1.2.1, h2.1,
    (classifier_rules_behavior [sentinelRule] presetCategoryDevice []).2.2⟩

/-- C4 counterexample: a device whose `device_category` was already assigned
(`"sensor"`) reaches a classifier none of whose rules match; the claim says
the category then becomes `"unknown"`, but the code keeps `"sensor"`. -/
theorem classifier_preset_category_counterexample :
    (∀ r ∈ sortRulesByPriority [sentinelRule],
      ruleMatches (buildSearchBlob presetCategoryDevice) r = false) ∧
    (classifierEnrich (sortRulesByPriority [sentinelRule])
      presetCategoryDevice).device_category = some "sensor" ∧
    (classifierEnrich (sortRulesByPriority [sentinelRule])
      presetCategoryDevice).device_category ≠ some "unknown" := by
  refine ⟨by decide, by decide, by decide⟩

theorem opt_cases {α : Type} (o : Option α) : o = none ∨ ∃ a, o = some a := by
  cases o
  · exact Or.inl rfl
  · exact Or.inr ⟨_, rfl⟩

theorem except_cases {ε α : Type} (o : Except ε α) :
    (∃ e, o = .error e) ∨ ∃ a, o = .ok a := by
  cases o
  · exact Or.inl ⟨_, rfl⟩
  · exact Or.inr ⟨_, rfl⟩

theorem ssrf_false_of_scheme (net : Network) (loc : String)
    (h : ¬ ((pyUrlparse loc).scheme = "http" ∨ (pyUrlparse loc).scheme = "https")) :
    ssrfAllows net loc = false := by
  unfold ssrfAllows
  rw [if_pos h]

theorem ssrf_false_of_host_none (net : Network) (loc : String)
    (hsch : (pyUrlparse loc).scheme = "http" ∨ (pyUrlparse loc).scheme = "https")
    (h : (pyUrlparse loc).host = none) : ssrfAllows net loc = false := by
  unfold ssrfAllows
  rw [if_neg (not_not_intro hsch), h]

theorem ssrf_false_of_resolve_none (net : Network) (loc host : String)
    (hsch : (pyUrlparse loc).scheme = "http" ∨ (pyUrlparse loc).scheme = "https")
    (hh : (pyUrlparse loc).host = some host)
    (h : resolveLocationHost net host = none) : ssrfAllows net loc = false := by
  unfold ssrfAllows
  rw [if_neg (not_not_intro hsch), hh]
  simp only
  rw [h]

theorem ssrf_of_ip (net : Network) (loc host : String) (ip : IPv4)
    (hsch : (pyUrlparse loc).scheme = "http" ∨ (pyUrlparse loc).scheme = "https")
    (hh : (pyUrlparse loc).host = some host)
    (h : resolveLocationHost net host = some ip) :
    ssrfAllows net loc = ip.isAllowed := by
  unfold ssrfAllows
  rw [if_neg (not_not_intro hsch), hh]
  simp only
  rw [h]

theorem enrichDeviceInfo_snd (net : Network) (record : SsdpRecord) :
    (enrichDeviceInfo net record).2 =
      match dictGet record "LOCATION" with
      | none => none
      | some location =>
          if location = "" then none
          else if ssrfAllows net location then
            some { url := location, allowRedirects := false, trustEnv := false }
          else none := by
  rcases opt_cases (dictGet record "LOCATION") with hget | ⟨location, hget⟩ <;>
    unfold enrichDeviceInfo <;> rw [hget]
  simp only
  by_cases hemp : location = ""
  · simp [hemp]
  · rw [if_neg hemp, if_neg hemp]
    by_cases hsch : (pyUrlparse location).scheme = "http" ∨
        (pyUrlparse location).scheme = "https"
    · rw [if_neg (not_not_intro hsch)]
      rcases opt_cases (pyUrlparse location).host with hhost | ⟨host, hhost⟩ <;>
        rw [hhost]
      · rw [ssrf_false_of_host_none net location hsch hhost]
        rfl
      · simp only
        rcases opt_cases (resolveLocationHost net host) with hres | ⟨ip, hres⟩ <;>
          rw [hres]
        · rw [ssrf_false_of_resolve_none net location host hsch hhost hres]
          rfl
        · simp only
          by_cases hip : ip.isAllowed
          · rw [if_neg (not_not_intro hip),
              ssrf_of_ip net location host ip hsch hhost hres, hip, if_pos rfl]
            rcases except_cases (net.fetch
                { url := location, allowRedirects := false, trustEnv := false }) with
              ⟨e, hf⟩ | ⟨resp, hf⟩
            · rw [hf]
            · rw [hf]
              simp only
              by_cases hst : resp.status = 200
              · rw [if_pos hst]
                rcases except_cases resp.xml with ⟨e, hx⟩ | ⟨doc, hx⟩
                · rw [hx]
                · rw [hx]
                  simp only
                  rcases opt_cases doc.deviceNode with hdn | ⟨dn, hdn⟩ <;> rw [hdn]
              · rw [if_neg hst]
          · rw [if_pos (by simpa using hip),
              ssrf_of_ip net location host ip hsch hhost hres]
            simp [hip]
    · rw [if_pos hsch, ssrf_false_of_scheme net location hsch]
      rfl

theorem enrichDeviceInfo_guard_fail (net : Network) (record : SsdpRecord)
    (loc : String) (hloc : dictGet record "LOCATION" = some loc)
    (hs : ssrfAllows net loc = false) :
    enrichDeviceInfo net record = (record, none) := by
  unfold enrichDeviceInfo
  rw [hloc]
  simp only
  by_cases hemp : loc = ""
  · simp [hemp]
  · rw [if_neg hemp]
    by_cases hsch : (pyUrlparse loc).scheme = "http" ∨
        (pyUrlparse loc).scheme = "https"
    · rw [if_neg (not_not_intro hsch)]
      rcases opt_cases (pyUrlparse loc).host with hhost | ⟨host, hhost⟩
      · rw [hhost]
      · rw [hhost]
        simp only
        rcases opt_cases (resolveLocationHost net host) with hres | ⟨ip, hres⟩
        · rw [hres]
        · rw [hres]
          simp only
          have hipf : ip.isAllowed = false := by
            rw [← ssrf_of_ip net loc host ip hsch hhost hres]
            exact hs
          rw [if_pos (by simp [hipf])]
    · rw [if_pos hsch]

theorem upnpDeepEnrich_snd (net : Network) (device : DeviceInfo) :
    (upnpDeepEnrich net device).2 =
      (if device.raw_data.location.getD "" = "" then none
       else if ssrfAllows net (device.raw_data.location.getD "") then
         some { url := device.raw_data.location.getD "",
                allowRedirects := false, trustEnv := false }
       else none) := by
  unfold upnpDeepEnrich
  set location := device.raw_data.location.getD "" with hlocdef
  by_cases hemp : location = ""
  · simp [hemp]
  · rw [if_neg hemp, if_neg hemp]
    by_cases hsch : (pyUrlparse location).scheme = "http" ∨
        (pyUrlparse location).scheme = "https"
    · rw [if_neg (not_not_intro hsch)]
      rcases opt_cases (pyUrlparse location).host with hhost | ⟨host, hhost⟩
      · rw [hhost, ssrf_false_of_host_none net location hsch hhost]
        rfl
      · rw [hhost]
        simp only
        rcases opt_cases (resolveLocationHost net host) with hres | ⟨ip, hres⟩
        · rw [hres, ssrf_false_of_resolve_none net location host hsch hhost hres]
          rfl
        · rw [hres]
          simp only
          by_cases hip : ip.isAllowed
          · rw [if_neg (not_not_intro hip),
              ssrf_of_ip net location host ip hsch hhost hres, hip, if_pos rfl]
            rcases except_cases (net.fetch
                { url := location, allowRedirects := false, trustEnv := false }) with
              ⟨e, hf⟩ | ⟨resp, hf⟩
            · rw [hf]
            · rw [hf]
              simp only
              by_cases hst : resp.status ≠ 200
              · rw [if_pos hst]
              · rw [if_neg hst]
                by_cases hct : pyInStr "xml" (pyToLower (resp.contentType.getD ""))
                · rw [if_neg (not_not_intro hct)]
                  by_cases hsz : resp.chunkSizes.sum > 1048576
                  · rw [if_pos hsz]
                  · rw [if_neg hsz]
                    rcases except_cases resp.xml with ⟨e, hx⟩ | ⟨doc, hx⟩
                    · rw [hx]
                    · rw [hx]
                      simp only
                      rcases opt_cases doc.deviceNode with hdn | ⟨dn, hdn⟩ <;>
                        rw [hdn]
                · rw [if_pos (by simpa using hct)]
          · rw [if_pos (by simpa using hip),
              ssrf_of_ip net location host ip hsch hhost hres]
            simp [hip]
    · rw [if_pos hsch, ssrf_false_of_scheme net location hsch]
      rfl

theorem upnpDeepEnrich_guard_fail (net : Network) (device : DeviceInfo)
    (hs : ssrfAllows net (device.raw_data.location.getD "") = false) :
    upnpDeepEnrich net device = (device, none) := by
  unfold upnpDeepEnrich
  set location := device.raw_data.location.getD "" with hlocdef
  by_cases hemp : location = ""
  · simp [hemp]
  · rw [if_neg hemp]
    by_cases hsch : (pyUrlparse location).scheme = "http" ∨
        (pyUrlparse location).scheme = "https"
    · rw [if_neg (not_not_intro hsch)]
      rcases opt_cases (pyUrlparse location).host with hhost | ⟨host, hhost⟩
      · rw [hhost]
      · rw [hhost]
        simp only
        rcases opt_cases (resolveLocationHost net host) with hres | ⟨ip, hres⟩
        · rw [hres]
        · rw [hres]
          simp only
          have hipf : ip.isAllowed = false := by
            rw [← ssrf_of_ip net location host ip hsch hhost hres]
            exact hs
          rw [if_pos (by simp [hipf])]
    · rw [if_pos hsch]

theorem upnpDeepEnrich_bad_response (net : Network) (device : DeviceInfo)
    (resp : HttpResponse)
    (hok : net.fetch
      { url := device.raw_data.location.getD "", allowRedirects := false,
        trustEnv := false } = .ok resp)
    (hbad : resp.status ≠ 200 ∨
      pyInStr "xml" (pyToLower (resp.contentType.getD "")) = false ∨
      resp.chunkSizes.sum > 1048576) :
    (upnpDeepEnrich net device).1 = device := by
  unfold upnpDeepEnrich
  set location := device.raw_data.location.getD "" with hlocdef
  by_cases hemp : location = ""
  · simp [hemp]
  · rw [if_neg hemp]
    by_cases hsch : (pyUrlparse location).scheme = "http" ∨
        (pyUrlparse location).scheme = "https"
    · rw [if_neg (not_not_intro hsch)]
      rcases opt_cases (pyUrlparse location).host with hhost | ⟨host, hhost⟩
      · rw [hhost]
      · rw [hhost]
        simp only
        rcases opt_cases (resolveLocationHost net host) with hres | ⟨ip, hres⟩
        · rw [hres]
        · rw [hres]
          simp only
          by_cases hip : ip.isAllowed
          · rw [if_neg (not_not_intro hip), hok]
            simp only
            by_cases hst : resp.status ≠ 200
            · rw [if_pos hst]
            · rw [if_neg hst]
              by_cases hct : pyInStr "xml" (pyToLower (resp.contentType.getD ""))
              · rw [if_neg (not_not_intro hct)]
                rcases hbad with h | h | h
                · exact absurd h hst
                · rw [h] at hct
                  cases hct
                · rw [if_pos h]
              · rw [if_pos (by simpa using hct)]
          · rw [if_pos (by simpa using hip)]
    · rw [if_pos hsch]

/-- C1 counterexample: the discovery-time fetch (`enrich_device_info`)
processes a 200 response whose Content-Type is `text/html` (no "xml") and
whose body is 2 MiB (over the 1 MiB cap): the record is modified, so the
claim that every description fetch enforces the content-type and size
conditions — leaving the record unchanged when they fail — is false. -/
theorem location_fetch_counterexample :
    pyInStr "xml" (pyToLower "text/html") = false ∧
    (2097152 > 1048576) ∧
    (enrichDeviceInfo htmlNet ssdpRec0).1 =
      [("LOCATION", "http://192.168.1.20/desc.xml"), ("name", "X")] ∧
    (enrichDeviceInfo htmlNet ssdpRec0).1 ≠ ssdpRec0 := by
  refine ⟨by decide, by decide, by decide, by decide⟩

/-- C1 (amended): every LOCATION description fetch issues its request only
when the SSRF guard passes (scheme http/https; host is or resolves to a
private, link-local or loopback IP), always with redirects disabled and the
proxy environment ignored; when the guard fails no fetch occurs and the
record (or device) is returned unchanged — in particular for LOCATION
`http://8.8.8.8/d.xml` no fetch is attempted by either fetcher.  The
deep-enrichment fetch additionally leaves the device unchanged unless the
response has status 200, an xml Content-Type and at most 1 MiB of body;
the discovery-time fetch checks only the status (the counterexample shows
it enforces neither the content-type nor the size condition). -/
theorem location_fetch_safety (net : Network) (record : SsdpRecord)
    (device : DeviceInfo) (loc : String) (req : FetchRequest)
    (resp : HttpResponse) :
    ((enrichDeviceInfo net record).2 = some req →
      dictGet record "LOCATION" = some req.url ∧ req.allowRedirects = false ∧
      req.trustEnv = false ∧ ssrfAllows net req.url = true) ∧
    ((upnpDeepEnrich net device).2 = some req →
      device.raw_data.location.getD "" = req.url ∧ req.allowRedirects = false ∧
      req.trustEnv = false ∧ ssrfAllows net req.url = true) ∧
    (dictGet record "LOCATION" = some loc → ssrfAllows net loc = false →
      enrichDeviceInfo net record = (record, none)) ∧
    (ssrfAllows net (device.raw_data.location.getD "") = false →
      upnpDeepEnrich net device = (device, none)) ∧
    (net.fetch
        { url := device.raw_data.location.getD "", allowRedirects := false,
          trustEnv := false } = .ok resp →
      (resp.status ≠ 200 ∨
        pyInStr "xml" (pyToLower (resp.contentType.getD "")) = false ∨
        resp.chunkSizes.sum > 1048576) →
      (upnpDeepEnrich net device).1 = device) ∧
    (dictGet record "LOCATION" = some "http://8.8.8.8/d.xml" →
      enrichDeviceInfo net record = (record, none)) ∧
    (device.raw_data.location = some "http://8.8.8.8/d.xml" →
      upnpDeepEnrich net device = (device, none)) := by
  have h88 : ssrfAllows net "http://8.8.8.8/d.xml" = false := by
    have hsch : (pyUrlparse "http://8.8.8.8/d.xml").scheme = "http" ∨
        (pyUrlparse "http://8.8.8.8/d.xml").scheme = "https" := by
      left
      rfl
    have hhost : (pyUrlparse "http://8.8.8.8/d.xml").host = some "8.8.8.8" := by
      rfl
    have hres : resolveLocationHost net "8.8.8.8" = some ⟨8, 8, 8, 8⟩ := by
      unfold resolveLocationHost
      rw [show parseIPv4 "8.8.8.8" = some ⟨8, 8, 8, 8⟩ from by decide]
    rw [ssrf_of_ip net _ "8.8.8.8" ⟨8, 8, 8, 8⟩ hsch hhost hres]
    decide
  refine ⟨?_, ?_, ?_, ?_, ?_, ?_, ?_⟩
  · intro hreq
    rw [enrichDeviceInfo_snd] at hreq
    rcases opt_cases (dictGet record "LOCATION") with hget | ⟨location, hget⟩ <;>
      rw [hget] at hreq <;> simp only at hreq
    · cases hreq
    · by_cases hemp : location = ""
      · rw [if_pos hemp] at hreq
        cases hreq
      · rw [if_neg hemp] at hreq
        by_cases hs : ssrfAllows net location
        · rw [if_pos hs] at hreq
          cases hreq
          exact ⟨hget, rfl, rfl, hs⟩
        · rw [if_neg hs] at hreq
          cases hreq
  · intro hreq
    rw [upnpDeepEnrich_snd] at hreq
    by_cases hemp : device.raw_data.location.getD "" = ""
    · rw [if_pos hemp] at hreq
      cases hreq
    · rw [if_neg hemp] at hreq
      by_cases hs : ssrfAllows net (device.raw_data.location.getD "")
      · rw [if_pos hs] at hreq
        cases hreq
        exact ⟨rfl, rfl, rfl, hs⟩
      · rw [if_neg hs] at hreq
        cases hreq
  · intro hloc hs
    exact enrichDeviceInfo_guard_fail net record loc hloc hs
  · intro hs
    exact upnpDeepEnrich_guard_fail net device hs
  · intro hok hbad
    exact upnpDeepEnrich_bad_response net device resp hok hbad
  · intro hloc
    exact enrichDeviceInfo_guard_fail net record _ hloc h88
  · intro hloc
    apply upnpDeepEnrich_guard_fail net device
    rw [hloc]
    exact h88

/-- Closed witness for `location_fetch_safety`: a record and a device whose
LOCATION is `http://8.8.8.8/d.xml` are returned unchanged with no fetch. -/
theorem location_fetch_safety_witness :
    enrichDeviceInfo htmlNet [("LOCATION", "http://8.8.8.8/d.xml")] =
      ([("LOCATION", "http://8.8.8.8/d.xml")], none) ∧
    upnpDeepEnrich htmlNet
        { protocol := "upnp",
          raw_data := { location := some "http://8.8.8.8/d.xml" } } =
      ({ protocol := "upnp",
         raw_data := { location := some "http://8.8.8.8/d.xml" } }, none) :=
  ⟨(location_fetch_safety htmlNet [("LOCATION", "http://8.8.8.8/d.xml")] {} ""
      { url := "", allowRedirects := false, trustEnv := false }
      { status := 0 }).2.2.2.2.2.1 (by decide),
   (location_fetch_safety htmlNet []
      { protocol := "upnp",
        raw_data := { location := some "http://8.8.8.8/d.xml" } } ""
      { url := "", allowRedirects := false, trustEnv := false }
      { status := 0 }).2.2.2.2.2.2 rfl⟩

/-- C8 counterexample: `MDNSTxtEnricher` (not covered by the claim's
UPnP-name exception) overwrites the non-empty `manufacturer` field with the
TXT-derived value, so "a field that is non-empty before the stage runs has
the same value after the stage runs" is false. -/
theorem additive_stage_counterexample :
    txtOverwriteDevice.manufacturer = some "Existing" ∧
    (mdnsTxtEnrich txtOverwriteDevice).manufacturer = some "New" ∧
    (mdnsTxtEnrich txtOverwriteDevice).manufacturer ≠
      txtOverwriteDevice.manufacturer := by
  refine ⟨rfl, by decide, by decide⟩

theorem pyOrOpt_of_falsy (a b : Option String) (h : truthy a = false) :
    pyOrOpt a b = b := by
  cases a with
  | none => rfl
  | some s =>
    have hs : s = "" := by
      by_contra hne
      simp [truthy, hne] at h
    simp [pyOrOpt, hs]

theorem pyOrOpt_of_truthy (a b : Option String) (h : truthy a = true) :
    pyOrOpt a b = a := by
  cases a with
  | none => simp [truthy] at h
  | some s =>
    have hs : s ≠ "" := by
      intro hne
      simp [truthy, hne] at h
    simp [pyOrOpt, hs]

/-- C8 (amended): stages are additive only where implemented so — each
stage leaves the fields it does not target unchanged; `MDNSTxtEnricher`
overwrites a field only when the TXT record supplies a non-empty value for
one of that field's keys (otherwise the existing value is kept);
UPnP-XML preserves a non-empty `friendly_name` (while overwriting
manufacturer/model/serial/device_url from the XML); WSD scope parsing only
appends to `device_tags`. -/
theorem stage_additivity (devM devU devW : DeviceInfo) (parsed : UrlParts)
    (location : String) (dn : UpnpDeviceNode) (scopes : String)
    (hfn : truthy devU.friendly_name = true) :
    (mdnsTxtEnrich devM).friendly_name = devM.friendly_name ∧
    (mdnsTxtEnrich devM).device_category = devM.device_category ∧
    (mdnsTxtEnrich devM).device_tags = devM.device_tags ∧
    ((mdnsTxtEnrich devM).manufacturer = devM.manufacturer ∨
      ∃ k ∈ ["manufacturer", "usb_mfg", "vendor"],
        truthy (dictGet (mdnsTxtDict devM) k) = true) ∧
    (upnpApplyDeviceXml parsed location dn devU).friendly_name =
      devU.friendly_name ∧
    devW.device_tags <+: (wsdParseScopes devW scopes).device_tags := by
  refine ⟨?_, ?_, ?_, ?_, ?_, ?_⟩
  · simp only [mdnsTxtEnrich]
    split <;> rfl
  · simp only [mdnsTxtEnrich]
    split <;> rfl
  · simp only [mdnsTxtEnrich]
    split <;> rfl
  · simp only [mdnsTxtEnrich]
    split
    · exact Or.inl rfl
    · by_cases h1 : truthy (dictGet (mdnsTxtDict devM) "manufacturer")
      · exact Or.inr ⟨"manufacturer", by simp, h1⟩
      · by_cases h2 : truthy (dictGet (mdnsTxtDict devM) "usb_mfg")
        · exact Or.inr ⟨"usb_mfg", by simp, h2⟩
        · by_cases h3 : truthy (dictGet (mdnsTxtDict devM) "vendor")
          · exact Or.inr ⟨"vendor", by simp, h3⟩
          · refine Or.inl ?_
            simp only
            rw [pyOrOpt_of_falsy _ _ (by simpa using h1),
              pyOrOpt_of_falsy _ _ (by simpa using h2),
              pyOrOpt_of_falsy _ _ (by simpa using h3)]
  · unfold upnpApplyDeviceXml
    simp only
    exact pyOrOpt_of_truthy _ _ hfn
  · have hstep : ∀ (dev : DeviceInfo) (sc : String),
        dev.device_tags <+: (wsdScopeStep dev sc).device_tags := by
      intro dev sc
      simp only [wsdScopeStep]
      split
      · exact List.prefix_refl _
      · split
        · exact List.prefix_refl _
        · split
          · split
            · exact List.prefix_append _ _
            · exact List.prefix_refl _
          · exact List.prefix_refl _
    unfold wsdParseScopes
    generalize pySplitWs scopes = l
    induction l generalizing devW with
    | nil => exact List.prefix_refl _
    | cons sc rest ih =>
      rw [List.foldl_cons]
      exact List.IsPrefix.trans (hstep devW sc) (ih _)

/-- Closed witness for `stage_additivity`: a TXT record without manufacturer
keys leaves the existing name untouched; a device-XML application keeps the
non-empty friendly name; a type scope only appends a tag. -/
theorem stage_additivity_witness :
    (mdnsTxtEnrich keepMfgDevice).friendly_name = keepMfgDevice.friendly_name ∧
    (upnpApplyDeviceXml {} "http://192.168.0.9/d.xml"
      { manufacturer := some "Acme" } camNamedDevice).friendly_name =
      camNamedDevice.friendly_name ∧
    wsdTaggedDevice.device_tags <+:
      (wsdParseScopes wsdTaggedDevice
        "onvif://www.onvif.org/type/video_encoder").device_tags := by
  have h := stage_additivity keepMfgDevice camNamedDevice wsdTaggedDevice
    {} "http://192.168.0.9/d.xml" { manufacturer := some "Acme" }
    "onvif://www.onvif.org/type/video_encoder" (by decide)
  exact ⟨h.1, h.2.2.2.2.1, h.2.2.2.2.2⟩

theorem parseSysVersion_pres (sd : List (String × String)) (r : MqttResult) :
    ((parseSysVersion sd r).anonymous_access,
     (parseSysVersion sd r).anonymous_publish,
     (parseSysVersion sd r).tls_supported) =
    (r.anonymous_access, r.anonymous_publish, r.tls_supported) := by
  simp only [parseSysVersion]
  split
  · split <;> rfl
  · rfl

theorem parseSysUptime_pres (sd : List (String × String)) (r : MqttResult) :
    ((parseSysUptime sd r).anonymous_access,
     (parseSysUptime sd r).anonymous_publish,
     (parseSysUptime sd r).tls_supported) =
    (r.anonymous_access, r.anonymous_publish, r.tls_supported) := by
  simp only [parseSysUptime]
  split
  · split
    · rfl
    · split <;> rfl
  · rfl

theorem parseSysClients_pres (sd : List (String × String)) (r : MqttResult) :
    ((parseSysClients sd r).anonymous_access,
     (parseSysClients sd r).anonymous_publish,
     (parseSysClients sd r).tls_supported) =
    (r.anonymous_access, r.anonymous_publish, r.tls_supported) := by
  simp only [parseSysClients]
  split
  · split <;> rfl
  · rfl

theorem parseSysReceived_pres (sd : List (String × String)) (r : MqttResult) :
    ((parseSysReceived sd r).anonymous_access,
     (parseSysReceived sd r).anonymous_publish,
     (parseSysReceived sd r).tls_supported) =
    (r.anonymous_access, r.anonymous_publish, r.tls_supported) := by
  simp only [parseSysReceived]
  split
  · split <;> rfl
  · rfl

theorem parseSysSent_pres (sd : List (String × String)) (r : MqttResult) :
    ((parseSysSent sd r).anonymous_access,
     (parseSysSent sd r).anonymous_publish,
     (parseSysSent sd r).tls_supported) =
    (r.anonymous_access, r.anonymous_publish, r.tls_supported) := by
  simp only [parseSysSent]
  split
  · split <;> rfl
  · rfl

theorem parseSysData_pres (sd : List (String × String)) (r : MqttResult) :
    ((parseSysData sd r).anonymous_access,
     (parseSysData sd r).anonymous_publish,
     (parseSysData sd r).tls_supported) =
    (r.anonymous_access, r.anonymous_publish, r.tls_supported) := by
  unfold parseSysData
  rw [parseSysSent_pres, parseSysReceived_pres, parseSysClients_pres,
    parseSysUptime_pres, parseSysVersion_pres]

theorem generateRiskFlags_iff (r2 : MqttResult) :
    (("open_broker" ∈ (generateRiskFlags r2).risk_flags) ↔
      (generateRiskFlags r2).anonymous_access = true) ∧
    (("anonymous_publish" ∈ (generateRiskFlags r2).risk_flags) ↔
      (generateRiskFlags r2).anonymous_publish = true) ∧
    (("no_tls" ∈ (generateRiskFlags r2).risk_flags) ↔
      (generateRiskFlags r2).tls_supported = false) := by
  unfold generateRiskFlags
  cases h1 : r2.anonymous_access <;> cases h2 : r2.anonymous_publish <;>
    cases h3 : r2.tls_supported <;> simp [h1, h2, h3]

/-- C9 counterexample: on CONNACK rc=5 the broker record is returned before
`_generate_risk_flags` runs, so even with no TLS port open its `risk_flags`
list is empty — `no_tls` is missing, contradicting "for every returned
broker record the risk flags are derived deterministically ... no_tls iff no
TLS port was open". -/
theorem mqtt_rc5_no_risk_flags_counterexample :
    probeBroker "192.168.1.7" 1883 false lockedBroker = some lockedResult ∧
    lockedResult.tls_supported = false ∧
    lockedResult.anonymous_access = false ∧
    lockedResult.risk_flags = [] ∧
    "no_tls" ∉ lockedResult.risk_flags := by
  refine ⟨by decide, by decide, by decide, by decide, by decide⟩

/-- C9 (amended): on CONNACK rc≠0 a broker record is still returned with
`anonymous_access = false`, an empty `sampled_topics` list and — unlike what
the claim says — an *empty* `risk_flags` list (the rc≠0 path returns before
`_generate_risk_flags`); for every record returned from the rc=0 path the
risk flags are derived deterministically: `open_broker` iff anonymous access
succeeded, `anonymous_publish` iff the test publish succeeded, `no_tls` iff
no TLS port was open. -/
theorem mqtt_broker_record_and_risk_flags (ip : String) (port : Nat)
    (tls : Bool) (b : BrokerBehavior) (rc : Nat) (r : MqttResult) :
    (b.connack = some rc → rc ≠ 0 →
      ∃ r0, probeBroker ip port tls b = some r0 ∧
        r0.anonymous_access = false ∧ r0.sampled_topics = [] ∧
        r0.risk_flags = [] ∧ r0.address = ip ∧ r0.port = port ∧
        r0.tls_supported = tls) ∧
    (b.connack = some 0 → probeBroker ip port tls b = some r →
      (("open_broker" ∈ r.risk_flags) ↔ r.anonymous_access = true) ∧
      (("anonymous_publish" ∈ r.risk_flags) ↔ r.anonymous_publish = true) ∧
      (("no_tls" ∈ r.risk_flags) ↔ r.tls_supported = false)) := by
  constructor
  · intro hconn hrc
    refine ⟨{ address := ip, port := port, tls_supported := tls }, ?_,
      rfl, rfl, rfl, rfl, rfl, rfl⟩
    unfold probeBroker
    rw [hconn]
    simp only
    rw [if_pos hrc]
  · intro hconn hr
    unfold probeBroker at hr
    rw [hconn] at hr
    simp only at hr
    rw [if_neg (by simp)] at hr
    cases hr
    exact generateRiskFlags_iff _

/-- Closed witness for `mqtt_broker_record_and_risk_flags`: the locked
broker yields a record with empty flags; the open broker's flags satisfy
the three iff conditions. -/
theorem mqtt_broker_record_and_risk_flags_witness :
    (∃ r0, probeBroker "192.168.1.7" 1883 false lockedBroker = some r0 ∧
      r0.anonymous_access = false ∧ r0.sampled_topics = [] ∧
      r0.risk_flags = [] ∧ r0.address = "192.168.1.7" ∧ r0.port = 1883 ∧
      r0.tls_supported = false) ∧
    ((("open_broker" ∈ sampleProbeResult.risk_flags) ↔
        sampleProbeResult.anonymous_access = true) ∧
     (("anonymous_publish" ∈ sampleProbeResult.risk_flags) ↔
        sampleProbeResult.anonymous_publish = true) ∧
     (("no_tls" ∈ sampleProbeResult.risk_flags) ↔
        sampleProbeResult.tls_supported = false)) :=
  ⟨(mqtt_broker_record_and_risk_flags "192.168.1.7" 1883 false lockedBroker 5
      {}).1 rfl (by decide),
   (mqtt_broker_record_and_risk_flags "10.0.0.5" 1883 true sampleBroker 0
      sampleProbeResult).2 rfl (by rfl)⟩

theorem assocSetD_length_le {β : Type} (l : List (String × β)) (k : String)
    (v : β) : (assocSetD l k v).length ≤ l.length + 1 := by
  induction l with
  | nil => simp [assocSetD]
  | cons kv rest ih =>
    rw [assocSetD]
    split
    · simp
    · simpa using Nat.succ_le_succ ih

theorem onMessage_inv (st : ProbeState) (msg : String × String)
    (h : ProbeInv st) : ProbeInv (onMessage st msg) := by
  obtain ⟨h1, h2, h3, h4⟩ := h
  unfold onMessage
  split
  · split
    · refine ⟨?_, h2, h3, h4⟩
      have := assocSetD_length_le st.sysData msg.1 msg.2
      simp only
      omega
    · exact ⟨h1, h2, h3, h4⟩
  · rename_i hss
    split
    · split
      · exact ⟨h1, h2, h3, h4⟩
      · rename_i hlt hmem
        refine ⟨h1, ?_, ?_, ?_⟩
        · simp only [List.length_append, List.length_singleton]
          omega
        · simp [List.nodup_append, h3, hmem]
        · intro t ht
          rcases List.mem_append.mp ht with ht | ht
          · exact h4 t ht
          · rw [List.mem_singleton] at ht
            subst ht
            simpa using hss
    · exact ⟨h1, h2, h3, h4⟩

theorem foldl_onMessage_inv (events : List (String × String)) (st : ProbeState)
    (h : ProbeInv st) : ProbeInv (events.foldl onMessage st) := by
  induction events generalizing st with
  | nil => exact h
  | cons ev rest ih => exact ih _ (onMessage_inv st ev h)

/-- C10: every returned broker record's `sampled_topics` holds only topics
not starting with `$SYS/`, without duplicates, at most 50 of them, sorted in
ascending lexicographic order; and the `$SYS` metadata map holds at most 200
entries. -/
theorem mqtt_sampled_topics_caps (ip : String) (port : Nat) (tls : Bool)
    (b : BrokerBehavior) (r : MqttResult)
    (hr : probeBroker ip port tls b = some r) :
    r.sampled_topics.length ≤ 50 ∧ r.sampled_topics.Nodup ∧
    List.Sorted (fun a b : String => a ≤ b) r.sampled_topics ∧
    (∀ t ∈ r.sampled_topics, pyStartsWith t "$SYS/" = false) ∧
    r.metadata.length ≤ 200 := by
  unfold probeBroker at hr
  rcases opt_cases b.connack with hc | ⟨rc, hc⟩ <;> rw [hc] at hr
  · cases hr
  · simp only at hr
    by_cases hrc : rc ≠ 0
    · rw [if_pos hrc] at hr
      cases hr
      refine ⟨by simp, by simp, by simp, by simp, by simp⟩
    · rw [if_neg hrc] at hr
      cases hr
      have hst1 : ProbeInv (b.sysEvents.foldl onMessage {}) :=
        foldl_onMessage_inv b.sysEvents {} ⟨by simp [MAX_SYS_ENTRIES],
          by simp [MAX_SAMPLED_TOPICS], by simp, by simp⟩
      have hst2 : ProbeInv (if b.samplingRuns then
          b.topicEvents.foldl onMessage (b.sysEvents.foldl onMessage {})
        else b.sysEvents.foldl onMessage {}) := by
        split
        · exact foldl_onMessage_inv _ _ hst1
        · exact hst1
      obtain ⟨m1, m2, m3, m4⟩ := hst2
      have hperm := List.perm_insertionSort (fun a b : String => a ≤ b)
        (if b.samplingRuns then
          b.topicEvents.foldl onMessage (b.sysEvents.foldl onMessage {})
        else b.sysEvents.foldl onMessage {}).sampledTopics
      simp only [generateRiskFlags, pySorted]
      refine ⟨?_, ?_, ?_, ?_, ?_⟩
      · rw [hperm.length_eq]
        exact m2
      · exact hperm.nodup_iff.mpr m3
      · exact List.sorted_insertionSort _ _
      · intro t ht
        exact m4 t (hperm.mem_iff.mp ht)
      · exact m1

/-- Closed witness for `mqtt_sampled_topics_caps` at `sampleBroker`: two
unique non-$SYS topics, sorted. -/
theorem mqtt_sampled_topics_caps_witness :
    sampleProbeResult.sampled_topics.length ≤ 50 ∧
    sampleProbeResult.sampled_topics.Nodup ∧
    List.Sorted (fun a b : String => a ≤ b) sampleProbeResult.sampled_topics ∧
    (∀ t ∈ sampleProbeResult.sampled_topics,
      pyStartsWith t "$SYS/" = false) ∧
    sampleProbeResult.metadata.length ≤ 200 :=
  mqtt_sampled_topics_caps "10.0.0.5" 1883 true sampleBroker sampleProbeResult
    (by rfl)

end FireFly

